import Mathlib

/-!
Shallow embedding of the `content-directory` runtime module
(`src/runtime-modules/content-directory/src/lib.rs`) and proofs about it.

Conventions of this development:
* storage maps (`ClassById`, `EntityById`, ...) are association lists keyed by
  `Nat`; reading a missing key yields the `Default` value, exactly like the
  substrate storage getters used by the source;
* machine integers are modelled as `Nat` with explicit reductions modulo the
  integer width where overflow or underflow can occur (`u16` for length
  constraints, `u32` for the two reference counters, `u64` for ids and
  entity counts), since the runtime is compiled with wrapping arithmetic;
* fallible dispatchables return a `Res` value: either `ok (state, events)` or
  an error, mirroring the `ensure!`-style early returns of the source.  An
  error return leaves storage untouched;
* the companion modules of `lib.rs` (`errors.rs`, `permissions.rs`,
  `schema.rs`) are not part of the source tree; the few items of theirs that
  `lib.rs` uses are modelled from the specification and are marked
  `Modelled from the spec` in their doc comments.
-/

namespace ContentDirectory

/-- Word bound for the `u16` values of `InputValidationLengthConstraint`. -/
def U16 : Nat := 65536

/-- Word bound for the `u32` `ReferenceCounter` fields. -/
def U32 : Nat := 4294967296

/-- Word bound for the id types (`ClassId`, `EntityId`) and entity counters,
instantiated at `u64` by the runtime. -/
def U64 : Nat := 18446744073709551616

/-- Errors surfaced by the module.  Modelled from the spec (section 7) and the
`ERROR_*` constants referenced by `lib.rs`; `errors.rs` itself is not in the
source tree, so the constructors just name the constants. -/
inductive Err where
  | leadAuthFailed
  | originNotSigned
  | accessDenied
  | entityNotFound
  | classNotFound
  | entityRcNonZero
  | classLimitReached
  | classSchemasLimitReached
  | classPropertiesLimitReached
  | maxEntitiesPerClassReached
  | entitiesNumberPerClassConstraintViolated
  | classEntitiesPerActorConstraintViolated
  | perControllerLimitExceedsOverallLimit
  | entityCreationBlocked
  | voucherLimitReached
  | unknownEntityPropId
  | allPropsLockedOnClassLevel
  | propertyLockedForActor
  | classPropNotFound
  | typeMismatch
  | textTooLong
  | vecTooLong
  | entityNotReferenceable
  | sameControllerConstraintViolated
  | classNameTooShort
  | classNameTooLong
  | classDescriptionTooShort
  | classDescriptionTooLong
  | propNameNotUnique
  | noPropsInClassSchema
  | schemaRefersUnknownPropIndex
  | schemaRefersUnknownClass
  | missingRequiredProp
  | propertyValueNotUnique
  | maintainersLimitReached
  | curatorGroupNotFound
  | nonceMismatch
  | indexOutOfBounds
  | propValueNotVector
  | entityFrozen
  | propNameTooShort
  | propNameTooLong
  | propDescriptionTooShort
  | propDescriptionTooLong
deriving DecidableEq

/-- Result of a dispatchable call: the updated storage plus emitted events, or
an error (in which case storage is untouched). -/
inductive Res (α : Type) where
  | ok (val : α)
  | err (e : Err)
deriving DecidableEq

/-- The call succeeded. -/
def Res.isOk {α : Type} : Res α → Bool
  | .ok _ => true
  | .err _ => false

/-- Value of a successful call (defaulting on an error), used to state
concrete evaluations without an existential. -/
def Res.valOf {α : Type} [Inhabited α] : Res α → α
  | .ok v => v
  | .err _ => default

/-- Association-list lookup, the model of a storage-map read returning
`Option`. -/
def lookupA {κ α : Type} [DecidableEq κ] (k : κ) : List (κ × α) → Option α
  | [] => none
  | p :: rest => if k = p.1 then some p.2 else lookupA k rest

/-- Association-list write: replace the first binding of `k`, or append one. -/
def setA {κ α : Type} [DecidableEq κ] (k : κ) (v : α) : List (κ × α) → List (κ × α)
  | [] => [(k, v)]
  | p :: rest => if k = p.1 then (k, v) :: rest else p :: setA k v rest

/-- Association-list delete, the model of a storage-map `remove`. -/
def removeA {κ α : Type} [DecidableEq κ] (k : κ) (l : List (κ × α)) : List (κ × α) :=
  l.filter (fun p => p.1 ≠ k)

/-- Storage-map read defaulting on a missing key, like the substrate getters
(`class_by_id`, `entity_by_id`, ...). -/
def getD {κ α : Type} [DecidableEq κ] [Inhabited α] (k : κ) (l : List (κ × α)) : α :=
  (lookupA k l).getD default

/-- Storage-map `mutate`: read (defaulting), apply, write back. -/
def mutA {κ α : Type} [DecidableEq κ] [Inhabited α] (k : κ) (f : α → α)
    (l : List (κ × α)) : List (κ × α) :=
  setA k (f (getD k l)) l

/-- Length constraint for input validation (`InputValidationLengthConstraint`);
both fields are `u16` values. -/
structure InputValidationLengthConstraint where
  min : Nat
  max_min_diff : Nat
deriving DecidableEq

/-- Helper for computing max (`InputValidationLengthConstraint::max`): a `u16`
addition, hence reduced modulo `2^16`. -/
def InputValidationLengthConstraint.max (c : InputValidationLengthConstraint) : Nat :=
  (c.min + c.max_min_diff) % U16

/-- The length check `InputValidationLengthConstraint::ensure_valid`.  The
source casts the `usize` length with `len as u16`, which truncates to 16
bits before comparing. -/
def InputValidationLengthConstraint.ensure_valid (c : InputValidationLengthConstraint)
    (len : Nat) (too_short_msg too_long_msg : Err) : Res Unit :=
  let length := len % U16
  if length < c.min then .err too_short_msg
  else if length > c.max then .err too_long_msg
  else .ok ()

/-- Inner property type (`Type` of `schema.rs`).  Modelled from the spec: the
inner type is one of bool, integer widths, text (length-bounded), hash, or a
reference to a class id carrying a `same_controller` flag. -/
inductive TypeInner where
  | boolT
  | intT (width : Nat)
  | textT (maxLen : Nat)
  | hashT
  | reference (class_id : Nat) (same_controller : Bool)
deriving DecidableEq

/-- Property type (`PropertyType` of `schema.rs`): a single value or a bounded
vector.  Modelled from the spec. -/
inductive PropertyType where
  | single (t : TypeInner)
  | vec (t : TypeInner) (maxLen : Nat)
deriving DecidableEq

/-- Inner type of a `PropertyType`, single or vector. -/
def PropertyType.get_inner_type : PropertyType → TypeInner
  | .single t => t
  | .vec t _ => t

/-- The `same_controller_status` accessor: whether the (inner) type is a
reference with the `SameOwner` flag set.  Modelled from the spec. -/
def PropertyType.same_controller_status (pt : PropertyType) : Bool :=
  match pt.get_inner_type with
  | .reference _ sc => sc
  | _ => false

/-- The `get_referenced_class_id` accessor.  Modelled from the spec. -/
def PropertyType.get_referenced_class_id (pt : PropertyType) : Option Nat :=
  match pt.get_inner_type with
  | .reference cid _ => some cid
  | _ => none

/-- Property declaration (`Property` of `schema.rs`).  Modelled from the spec:
a typed field with `required`, `unique` and two lock flags, plus name and
description byte strings. -/
structure Property where
  prop_type : PropertyType
  required : Bool
  unique : Bool
  name : List Nat
  description : List Nat
  locked_from_maintainer : Bool
  locked_from_controller : Bool
deriving DecidableEq

/-- Class schema (`Schema` of `schema.rs`): a set of property indices plus an
active flag.  Modelled from the spec. -/
structure Schema where
  properties : List Nat
  is_active : Bool
deriving DecidableEq

/-- The `Schema::new` constructor: initially active.  Modelled from the spec
("appended, initially active"). -/
def Schema.new (existing : List Nat) : Schema :=
  ⟨existing, true⟩

/-- Single property value (`Value` of `schema.rs`).  Modelled from the spec;
`noneV` is the null default of optional properties. -/
inductive SingleValue where
  | boolV (b : Bool)
  | intV (i : Int)
  | textV (s : List Nat)
  | hashV (h : List Nat)
  | refV (e : Nat)
  | noneV
deriving DecidableEq

/-- Vector property value (`VecPropertyValue` of `schema.rs`): the elements
plus the lost-update guard nonce.  Modelled from the spec. -/
structure VecValue where
  vec_value : List SingleValue
  nonce : Nat
deriving DecidableEq

/-- Property value (`PropertyValue` of `schema.rs`): single or vector.
Modelled from the spec. -/
inductive PropertyValue where
  | single (v : SingleValue)
  | vector (v : VecValue)
deriving DecidableEq

instance : Inhabited PropertyValue := ⟨.single .noneV⟩

/-- The `get_involved_entity` accessor of a single value: the referenced
entity id, if any.  Modelled from the spec. -/
def SingleValue.get_involved_entity : SingleValue → Option Nat
  | .refV e => some e
  | _ => none

/-- All elements of the list are references; if so, return the referenced
ids.  Used to model the typed reference vectors of `schema.rs`. -/
def refsOf : List SingleValue → Option (List Nat)
  | [] => some []
  | .refV e :: rest => (refsOf rest).map (fun l => e :: l)
  | _ => none

/-- The `get_involved_entities` accessor of a property value: the ids
referenced by it, when it is of reference shape.  Modelled from the spec. -/
def PropertyValue.get_involved_entities : PropertyValue → Option (List Nat)
  | .single v => (v.get_involved_entity).map (fun e => [e])
  | .vector v => refsOf v.vec_value

/-- Referenced ids of a property value, defaulting to the empty list: the
source only iterates the involved entities when `get_involved_entities`
returns `Some`. -/
def involvedD (v : PropertyValue) : List Nat :=
  (v.get_involved_entities).getD []

/-- Entity controller principal (`EntityController` of `permissions.rs`).
Modelled from the spec: derived from the creating actor
(curator to its group, member to the member id, lead to lead). -/
inductive EntityController where
  | lead
  | member (id : Nat)
  | curatorGroup (id : Nat)
deriving DecidableEq

/-- Caller role (`Actor` of `permissions.rs`).  Modelled from the spec. -/
inductive Actor where
  | lead
  | member (id : Nat)
  | curator (group_id : Nat) (curator_id : Nat)
deriving DecidableEq

/-- The `EntityController::from_actor` conversion.  Modelled from the spec. -/
def EntityController.from_actor : Actor → EntityController
  | .lead => .lead
  | .member m => .member m
  | .curator g _ => .curatorGroup g

/-- Entity permissions (`EntityPermissions` of `permissions.rs`).  Modelled
from the spec: controller principal plus `frozen` and `referenceable`
flags. -/
structure EntityPermissions where
  controller : EntityController
  frozen : Bool
  referenceable : Bool
deriving DecidableEq

instance : Inhabited EntityPermissions := ⟨⟨.lead, false, true⟩⟩

/-- The `EntityPermissions::default_with_controller` constructor.  Modelled
from the spec. -/
def EntityPermissions.default_with_controller (c : EntityController) : EntityPermissions :=
  ⟨c, false, true⟩

/-- Per-call access level (`EntityAccessLevel` of `permissions.rs`).
Modelled from the spec (section 4.2). -/
inductive EntityAccessLevel where
  | entityController
  | entityMaintainer
  | anyLevel
deriving DecidableEq

/-- Class permissions (`ClassPermissions` of `permissions.rs`).  Modelled from
the spec. -/
structure ClassPermissions where
  any_member : Bool
  entity_creation_blocked : Bool
  all_entity_property_values_locked : Bool
  maintainers : List Nat
deriving DecidableEq

instance : Inhabited ClassPermissions := ⟨⟨false, false, false, []⟩⟩

/-- Class (`Class<T>` of `lib.rs`). -/
structure Class where
  class_permissions : ClassPermissions
  properties : List Property
  schemas : List Schema
  name : List Nat
  description : List Nat
  maximum_entities_count : Nat
  current_number_of_entities : Nat
  per_controller_entity_creation_limit : Nat
deriving DecidableEq

instance : Inhabited Class := ⟨⟨default, [], [], [], [], 0, 0, 0⟩⟩

/-- The `Class::new` constructor. -/
def Class.new (class_permissions : ClassPermissions) (name description : List Nat)
    (maximum_entities_count per_controller_entity_creation_limit : Nat) : Class :=
  ⟨class_permissions, [], [], name, description,
    maximum_entities_count, 0, per_controller_entity_creation_limit⟩

/-- Entity (`Entity<T>` of `lib.rs`).  The two counter fields are `u32`
reference counters. -/
structure Entity where
  entity_permission : EntityPermissions
  class_id : Nat
  supported_schemas : List Nat
  values : List (Nat × PropertyValue)
  reference_count : Nat
  inbound_same_owner_references_from_other_entities_count : Nat
deriving DecidableEq

instance : Inhabited Entity := ⟨⟨default, 0, [], [], 0, 0⟩⟩

/-- The `Entity::new` constructor. -/
def Entity.new (controller : EntityController) (class_id : Nat)
    (supported_schemas : List Nat) (values : List (Nat × PropertyValue)) : Entity :=
  ⟨EntityPermissions.default_with_controller controller, class_id,
    supported_schemas, values, 0, 0⟩

/-- Entity creation voucher (`EntityCreationVoucher` of `permissions.rs`).
Modelled from the spec: `maximum_entities_count` and `entities_created`. -/
structure EntityCreationVoucher where
  maximum_entities_count : Nat
  entities_created : Nat
deriving DecidableEq

instance : Inhabited EntityCreationVoucher := ⟨⟨0, 0⟩⟩

/-- The `EntityCreationVoucher::new` constructor.  Modelled from the spec:
fresh vouchers start with no entities created. -/
def EntityCreationVoucher.new (maximum_entities_count : Nat) : EntityCreationVoucher :=
  ⟨maximum_entities_count, 0⟩

/-- The `increment_created_entities_count` mutator (`u64` addition).
Modelled from the spec. -/
def EntityCreationVoucher.increment_created_entities_count
    (v : EntityCreationVoucher) : EntityCreationVoucher :=
  { v with entities_created := (v.entities_created + 1) % U64 }

/-- The `limit_not_reached` accessor: strictly below the voucher maximum.
Modelled from the spec ("Ensure `entities_created < maximum_entities_count`
on the voucher"). -/
def EntityCreationVoucher.limit_not_reached (v : EntityCreationVoucher) : Bool :=
  v.entities_created < v.maximum_entities_count

/-- Curator group (`CuratorGroup` of `permissions.rs`).  Modelled from the
spec. -/
structure CuratorGroup where
  curators : List Nat
  active : Bool
  number_of_classes_maintained : Nat
deriving DecidableEq

instance : Inhabited CuratorGroup := ⟨⟨[], false, 0⟩⟩

/-- Events deposited by the dispatchables (`decl_event!` of `lib.rs`); only
the constructors used by the embedded calls are present. -/
inductive Event where
  | classCreated (class_id : Nat)
  | classSchemaAdded (class_id schema_id : Nat)
  | entityCreated (actor : Actor) (entity_id : Nat)
  | entityRemoved (actor : Actor) (entity_id : Nat)
  | entityPropertyValuesUpdated (actor : Actor) (entity_id : Nat)
  | insertedAtEntityPropertyValueVectorIndex (actor : Actor) (entity_id prop_id index nonce : Nat)
  | entityOwnershipTransfered (entity_id : Nat) (new_controller : EntityController)
deriving DecidableEq

/-- Runtime storage (`decl_storage!` of `lib.rs`). -/
structure State where
  curator_group_by_id : List (Nat × CuratorGroup)
  class_by_id : List (Nat × Class)
  entity_by_id : List (Nat × Entity)
  next_curator_group_id : Nat
  next_class_id : Nat
  next_entity_id : Nat
  entity_creation_vouchers : List ((Nat × EntityController) × EntityCreationVoucher)
deriving DecidableEq

instance : Inhabited State := ⟨⟨[], [], [], 0, 0, 0, []⟩⟩

/-- Storage getter `class_by_id`, defaulting on a missing key. -/
def classOf (st : State) (class_id : Nat) : Class :=
  getD class_id st.class_by_id

/-- Storage getter `entity_by_id`, defaulting on a missing key. -/
def entityOf (st : State) (entity_id : Nat) : Entity :=
  getD entity_id st.entity_by_id

/-- Storage getter `entity_creation_vouchers`, defaulting on a missing key. -/
def voucherOf (st : State) (class_id : Nat) (c : EntityController) : EntityCreationVoucher :=
  getD (class_id, c) st.entity_creation_vouchers

/-- Configuration constants injected through the `Trait` bounds of `lib.rs`. -/
structure Config where
  propertyNameConstraint : InputValidationLengthConstraint
  propertyDescriptionConstraint : InputValidationLengthConstraint
  classNameConstraint : InputValidationLengthConstraint
  classDescriptionConstraint : InputValidationLengthConstraint
  maxNumberOfClasses : Nat
  maxNumberOfMaintainersPerClass : Nat
  maxNumberOfCuratorsPerGroup : Nat
  numberOfSchemasPerClass : Nat
  maxNumberOfPropertiesPerClass : Nat
  maxNumberOfOperationsDuringAtomicBatching : Nat
  vecMaxLengthConstraint : Nat
  textMaxLengthConstraint : Nat
  maxNumberOfEntitiesPerClass : Nat
  individualEntitiesCreationLimit : Nat
deriving DecidableEq

/-- Wrapping `u32` addition (`+=` on a `ReferenceCounter` in the wasm
runtime wraps). -/
def wadd32 (a b : Nat) : Nat := (a + b) % U32

/-- Wrapping `u32` subtraction. -/
def wsub32 (a b : Nat) : Nat := (a % U32 + U32 - b % U32) % U32

/-- Wrapping `u64` addition (ids and entity counters). -/
def wadd64 (a b : Nat) : Nat := (a + b) % U64

/-- Wrapping `u64` subtraction. -/
def wsub64 (a b : Nat) : Nat := (a % U64 + U64 - b % U64) % U64

/-- The `increment_entity_rcs` helper of `Module<T>`: bump the reference
counter (and the same-owner counter when `same_owner` is set) of the entity
under `entity_id` with plain wrapping `+=`. -/
def increment_entity_rcs (st : State) (entity_id : Nat) (rc : Nat) (same_owner : Bool) : State :=
  { st with entity_by_id := mutA entity_id (fun e =>
      if same_owner then
        { e with
          inbound_same_owner_references_from_other_entities_count :=
            wadd32 e.inbound_same_owner_references_from_other_entities_count rc,
          reference_count := wadd32 e.reference_count rc }
      else { e with reference_count := wadd32 e.reference_count rc }) st.entity_by_id }

/-- The `decrement_entity_rcs` helper of `Module<T>`: plain wrapping `-=`,
with no error path. -/
def decrement_entity_rcs (st : State) (entity_id : Nat) (rc : Nat) (same_owner : Bool) : State :=
  { st with entity_by_id := mutA entity_id (fun e =>
      if same_owner then
        { e with
          inbound_same_owner_references_from_other_entities_count :=
            wsub32 e.inbound_same_owner_references_from_other_entities_count rc,
          reference_count := wsub32 e.reference_count rc }
      else { e with reference_count := wsub32 e.reference_count rc }) st.entity_by_id }

/-- The `EntitiesRc<T>` pair of delta maps (entity id to counter delta).
The `BTreeMap`s are modelled as association lists; since the keys within one
map are distinct, iteration order does not affect the applied result. -/
structure EntitiesRc where
  inbound_entity_rcs : List (Nat × Nat)
  inbound_same_owner_entity_rcs : List (Nat × Nat)
deriving DecidableEq

instance : Inhabited EntitiesRc := ⟨⟨[], []⟩⟩

/-- One step of `fill_in_entity_rcs_map`: bump the counter under a key, or
insert it with counter one. -/
def bumpRc (k : Nat) : List (Nat × Nat) → List (Nat × Nat)
  | [] => [(k, 1)]
  | p :: rest => if p.1 = k then (p.1, p.2 + 1) :: rest else p :: bumpRc k rest

/-- The `fill_in_entity_rcs_map` helper of `Module<T>`. -/
def fill_in_entity_rcs_map (ids : List Nat) (m : List (Nat × Nat)) : List (Nat × Nat) :=
  ids.foldl (fun acc k => bumpRc k acc) m

/-- Apply one delta map through `increment_entity_rcs`. -/
def applyIncrements (st : State) (m : List (Nat × Nat)) (same_owner : Bool) : State :=
  m.foldl (fun acc p => increment_entity_rcs acc p.1 p.2 same_owner) st

/-- Apply one delta map through `decrement_entity_rcs`. -/
def applyDecrements (st : State) (m : List (Nat × Nat)) (same_owner : Bool) : State :=
  m.foldl (fun acc p => decrement_entity_rcs acc p.1 p.2 same_owner) st

/-- Validation of one single value against the declared inner type.
Modelled from the spec (section 4.1): shape matches; text length at most the
declared maximum; a reference target exists, is referenceable and, under
`same_controller`, shares the writing entity's controller.  A null value is
accepted for any type. -/
def validate_single_value (st : State) (t : TypeInner) (v : SingleValue)
    (controller : EntityController) : Res Unit :=
  match t, v with
  | _, .noneV => .ok ()
  | .boolT, .boolV _ => .ok ()
  | .intT _, .intV _ => .ok ()
  | .textT m, .textV s => if s.length ≤ m then .ok () else .err .textTooLong
  | .hashT, .hashV _ => .ok ()
  | .reference _ sc, .refV e =>
    match lookupA e st.entity_by_id with
    | none => .err .entityNotFound
    | some ent =>
      if ent.entity_permission.referenceable then
        if sc then
          if ent.entity_permission.controller = controller then .ok ()
          else .err .sameControllerConstraintViolated
        else .ok ()
      else .err .entityNotReferenceable
  | _, _ => .err .typeMismatch

/-- Validation of every element of a vector value. -/
def validate_single_list (st : State) (t : TypeInner) (controller : EntityController) :
    List SingleValue → Res Unit
  | [] => .ok ()
  | v :: rest =>
    match validate_single_value st t v controller with
    | .ok _ => validate_single_list st t controller rest
    | .err e => .err e

/-- The `ensure_property_value_to_update_is_valid` check of `schema.rs`.
Modelled from the spec (section 4.1): shape must match the declared property
type; vectors must fit the declared maximum length; elements validate
against the inner type. -/
def ensure_property_value_to_update_is_valid (st : State) (p : Property)
    (value : PropertyValue) (controller : EntityController) : Res Unit :=
  match p.prop_type, value with
  | .single t, .single v => validate_single_value st t v controller
  | .vec t maxLen, .vector v =>
    if v.vec_value.length ≤ maxLen then validate_single_list st t controller v.vec_value
    else .err .vecTooLong
  | _, _ => .err .typeMismatch

/-- The `Property::is_locked_from` accessor.  Modelled from the spec
(section 4.2): each lock flag forbids the corresponding access level. -/
def Property.is_locked_from (p : Property) (lvl : EntityAccessLevel) : Bool :=
  match lvl with
  | .entityController => p.locked_from_controller
  | .entityMaintainer => p.locked_from_maintainer
  | .anyLevel => p.locked_from_controller || p.locked_from_maintainer

/-- The actor is a member. -/
def Actor.isMember : Actor → Bool
  | .member _ => true
  | _ => false

/-- The actor is a curator inside one of the class's maintainer groups.
Modelled from the spec (section 4.2). -/
def actorMaintainsClass (st : State) (cp : ClassPermissions) : Actor → Bool
  | .curator g c => decide (g ∈ cp.maintainers) && decide (c ∈ (getD g st.curator_group_by_id).curators)
  | _ => false

/-- The `EntityAccessLevel::derive` resolution.  Modelled from the spec
(section 4.2): the entity's controller (when not frozen) gets
`EntityController`; a curator of a maintainer group gets `EntityMaintainer`;
any member gets the `Any` level when the class sets `any_member`; otherwise
access is denied. -/
def EntityAccessLevel.derive (st : State) (ep : EntityPermissions) (cp : ClassPermissions)
    (actor : Actor) : Res EntityAccessLevel :=
  if EntityController.from_actor actor = ep.controller ∧ ep.frozen = false then
    .ok .entityController
  else if actorMaintainsClass st cp actor then .ok .entityMaintainer
  else if cp.any_member ∧ actor.isMember then .ok .anyLevel
  else .err .accessDenied

/-- The `ensure_class_entity_and_access_level` helper of `Module<T>`: signed
origin (the external authenticator is abstracted into the `signedOk` flag),
entity existence, class fetch and access-level derivation. -/
def ensure_class_entity_and_access_level (st : State) (signedOk : Bool) (entity_id : Nat)
    (actor : Actor) : Res (Class × Entity × EntityAccessLevel) :=
  if signedOk = false then .err .originNotSigned
  else
    match lookupA entity_id st.entity_by_id with
    | none => .err .entityNotFound
    | some entity =>
      let cls := classOf st entity.class_id
      match EntityAccessLevel.derive st entity.entity_permission cls.class_permissions actor with
      | .ok lvl => .ok (cls, entity, lvl)
      | .err e => .err e

/-- The zip-filter-unzip delta computation inside
`perform_entity_property_value_update`: pair the old ids with the new ids
position-wise (`zip` stops at the shorter list), drop the pairs that agree,
and split back into (decrements, increments). -/
def rc_delta_pairs (decIds incIds : List Nat) : List Nat × List Nat :=
  ((decIds.zip incIds).filter (fun p => p.1 ≠ p.2)).unzip

/-- The `perform_entity_property_value_update` helper of `Module<T>`.
Returns the written property value together with the updated increment and
decrement maps.  When the property id is not a valid index of the class's
properties, the source's `if let` falls through and returns `Ok` without
touching anything. -/
def perform_entity_property_value_update (st : State) (cls : Class) (entity : Entity)
    (id : Nat) (access_level : EntityAccessLevel) (new_value current_prop_value : PropertyValue)
    (inc dec : EntitiesRc) : Res (PropertyValue × EntitiesRc × EntitiesRc) :=
  match cls.properties.get? id with
  | none => .ok (current_prop_value, inc, dec)
  | some class_prop =>
    if class_prop.is_locked_from access_level then .err .propertyLockedForActor
    else
      match ensure_property_value_to_update_is_valid st class_prop new_value
          entity.entity_permission.controller with
      | .err e => .err e
      | .ok _ =>
        let maps :=
          match new_value.get_involved_entities, current_prop_value.get_involved_entities with
          | some incVec, some decVec =>
            let pairs := rc_delta_pairs decVec incVec
            if class_prop.prop_type.same_controller_status then
              ({ inc with inbound_same_owner_entity_rcs :=
                  fill_in_entity_rcs_map pairs.2 inc.inbound_same_owner_entity_rcs },
               { dec with inbound_same_owner_entity_rcs :=
                  fill_in_entity_rcs_map pairs.1 dec.inbound_same_owner_entity_rcs })
            else
              ({ inc with inbound_entity_rcs :=
                  fill_in_entity_rcs_map pairs.2 inc.inbound_entity_rcs },
               { dec with inbound_entity_rcs :=
                  fill_in_entity_rcs_map pairs.1 dec.inbound_entity_rcs })
          | _, _ => (inc, dec)
        .ok (new_value, maps.1, maps.2)

/-- The iteration over `new_property_values` inside
`update_entity_property_values`: skip pairs equal to the current value, fail
on unknown property ids, and thread the staged values, the `updated` flag
and the two delta maps. -/
def update_values_loop (st : State) (cls : Class) (entity : Entity)
    (access_level : EntityAccessLevel) :
    List (Nat × PropertyValue) → List (Nat × PropertyValue) → Bool → EntitiesRc → EntitiesRc →
    Res (List (Nat × PropertyValue) × Bool × EntitiesRc × EntitiesRc)
  | [], updated_values, updated, inc, dec => .ok (updated_values, updated, inc, dec)
  | (id, new_value) :: rest, updated_values, updated, inc, dec =>
    match lookupA id updated_values with
    | none => .err .unknownEntityPropId
    | some current_prop_value =>
      if new_value = current_prop_value then
        update_values_loop st cls entity access_level rest updated_values updated inc dec
      else
        match perform_entity_property_value_update st cls entity id access_level new_value
            current_prop_value inc dec with
        | .err e => .err e
        | .ok (newCur, inc2, dec2) =>
          update_values_loop st cls entity access_level rest (setA id newCur updated_values)
            true inc2 dec2

/-- The `update_entity_property_values` dispatchable.  On a staged update it
writes the values, applies the increment maps then the decrement maps
(same-owner first, as in the source) and emits one event; otherwise it is a
no-op returning `Ok`. -/
def update_entity_property_values (st : State) (signedOk : Bool) (actor : Actor)
    (entity_id : Nat) (new_property_values : List (Nat × PropertyValue)) :
    Res (State × List Event) :=
  match ensure_class_entity_and_access_level st signedOk entity_id actor with
  | .err e => .err e
  | .ok (cls, entity, access_level) =>
    if cls.class_permissions.all_entity_property_values_locked then
      .err .allPropsLockedOnClassLevel
    else
      match update_values_loop st cls entity access_level new_property_values entity.values
          false default default with
      | .err e => .err e
      | .ok (updated_values, updated, inc, dec) =>
        if updated then
          let newEntities := mutA entity_id
            (fun e => { e with values := updated_values }) st.entity_by_id
          let st1 := { st with entity_by_id := newEntities }
          let st2 := applyIncrements st1 inc.inbound_same_owner_entity_rcs true
          let st3 := applyIncrements st2 inc.inbound_entity_rcs false
          let st4 := applyDecrements st3 dec.inbound_same_owner_entity_rcs true
          let st5 := applyDecrements st4 dec.inbound_entity_rcs false
          .ok (st5, [.entityPropertyValuesUpdated actor entity_id])
        else .ok (st, [])

/-- Number of property-value slots across all stored entities that reference
`target` (a vector slot contributes once per occurrence).  This is the
quantity that the reference-counting invariant equates with
`reference_count`. -/
def refSlotCount (st : State) (target : Nat) : Nat :=
  (st.entity_by_id.map (fun p =>
    (p.2.values.map (fun q => ((involvedD q.2).filter (fun t => t = target)).length)).sum)).sum

/-- The `ensure_schemas_limit_not_reached` check of `Class<T>`, exactly as
written in the source (`ensure!(limit < len, ...)`). -/
def ensure_schemas_limit_not_reached (conf : Config) (cls : Class) : Res Unit :=
  if conf.numberOfSchemasPerClass < cls.schemas.length then .ok ()
  else .err .classSchemasLimitReached

/-- The `ensure_properties_limit_not_reached` check of `Class<T>`, exactly as
written in the source (`ensure!(limit <= current + new, ...)`). -/
def ensure_properties_limit_not_reached (conf : Config) (cls : Class)
    (new_properties : List Property) : Res Unit :=
  if conf.maxNumberOfPropertiesPerClass ≤ cls.properties.length + new_properties.length then
    .ok ()
  else .err .classPropertiesLimitReached

/-- The `ensure_class_limit_not_reached` check of `Module<T>`, exactly as
written in the source (`ensure!(limit < count, ...)`). -/
def ensure_class_limit_not_reached (conf : Config) (st : State) : Res Unit :=
  if conf.maxNumberOfClasses < st.class_by_id.length then .ok ()
  else .err .classLimitReached

/-- The `ensure_maximum_entities_count_limit_not_reached` check of
`Class<T>`. -/
def ensure_maximum_entities_count_limit_not_reached (cls : Class) : Res Unit :=
  if cls.current_number_of_entities < cls.maximum_entities_count then .ok ()
  else .err .maxEntitiesPerClassReached

/-- The `ensure_valid_number_of_entities_per_class` check of `Module<T>`. -/
def ensure_valid_number_of_entities_per_class (conf : Config)
    (maximum_entities_count : Nat) : Res Unit :=
  if maximum_entities_count < conf.maxNumberOfEntitiesPerClass then .ok ()
  else .err .entitiesNumberPerClassConstraintViolated

/-- The `ensure_valid_number_of_class_entities_per_actor_constraint` check of
`Module<T>`. -/
def ensure_valid_number_of_class_entities_per_actor_constraint (conf : Config)
    (per_controller_entity_creation_limit : Nat) : Res Unit :=
  if per_controller_entity_creation_limit < conf.individualEntitiesCreationLimit then .ok ()
  else .err .classEntitiesPerActorConstraintViolated

/-- The `ensure_entities_creation_limits_are_valid` check of `Module<T>`. -/
def ensure_entities_creation_limits_are_valid (conf : Config)
    (maximum_entities_count per_controller_entities_creation_limit : Nat) : Res Unit :=
  if per_controller_entities_creation_limit < maximum_entities_count then
    match ensure_valid_number_of_entities_per_class conf maximum_entities_count with
    | .err e => .err e
    | .ok _ =>
      ensure_valid_number_of_class_entities_per_actor_constraint conf
        per_controller_entities_creation_limit
  else .err .perControllerLimitExceedsOverallLimit

/-- The `ensure_maintainers_limit_not_reached` check of `Module<T>`. -/
def ensure_maintainers_limit_not_reached (conf : Config) (curator_groups : List Nat) : Res Unit :=
  if curator_groups.length < conf.maxNumberOfMaintainersPerClass then .ok ()
  else .err .maintainersLimitReached

/-- The `ensure_curator_groups_exist` check of `Module<T>`. -/
def ensure_curator_groups_exist (st : State) : List Nat → Res Unit
  | [] => .ok ()
  | g :: rest =>
    match lookupA g st.curator_group_by_id with
    | some _ => ensure_curator_groups_exist st rest
    | none => .err .curatorGroupNotFound

/-- The `ensure_class_permissions_are_valid` check of `Module<T>`. -/
def ensure_class_permissions_are_valid (conf : Config) (st : State)
    (cp : ClassPermissions) : Res Unit :=
  match ensure_maintainers_limit_not_reached conf cp.maintainers with
  | .err e => .err e
  | .ok _ => ensure_curator_groups_exist st cp.maintainers

/-- The `ensure_class_name_is_valid` check of `Module<T>`. -/
def ensure_class_name_is_valid (conf : Config) (text : List Nat) : Res Unit :=
  conf.classNameConstraint.ensure_valid text.length .classNameTooShort .classNameTooLong

/-- The `ensure_class_description_is_valid` check of `Module<T>`. -/
def ensure_class_description_is_valid (conf : Config) (text : List Nat) : Res Unit :=
  conf.classDescriptionConstraint.ensure_valid text.length
    .classDescriptionTooShort .classDescriptionTooLong

/-- The `create_class` dispatchable (lead-only; the external origin check is
abstracted into `isLead`). -/
def create_class (conf : Config) (st : State) (isLead : Bool) (name description : List Nat)
    (class_permissions : ClassPermissions)
    (maximum_entities_count per_controller_entity_creation_limit : Nat) :
    Res (State × List Event) :=
  if isLead = false then .err .leadAuthFailed
  else
    match ensure_entities_creation_limits_are_valid conf maximum_entities_count
        per_controller_entity_creation_limit with
    | .err e => .err e
    | .ok _ =>
      match ensure_class_limit_not_reached conf st with
      | .err e => .err e
      | .ok _ =>
        match ensure_class_name_is_valid conf name with
        | .err e => .err e
        | .ok _ =>
          match ensure_class_description_is_valid conf description with
          | .err e => .err e
          | .ok _ =>
            match ensure_class_permissions_are_valid conf st class_permissions with
            | .err e => .err e
            | .ok _ =>
              let class_id := st.next_class_id
              let cls := Class.new class_permissions name description
                maximum_entities_count per_controller_entity_creation_limit
              .ok ({ st with
                      class_by_id := setA class_id cls st.class_by_id,
                      next_class_id := wadd64 st.next_class_id 1 },
                   [.classCreated class_id])

/-- The `ensure_non_empty_schema` check of `Module<T>`. -/
def ensure_non_empty_schema (existing_properties : List Nat)
    (new_properties : List Property) : Res Unit :=
  if existing_properties.isEmpty && new_properties.isEmpty then .err .noPropsInClassSchema
  else .ok ()

/-- The `Property::ensure_name_is_valid` check.  Modelled from the spec:
the property name must satisfy the configured length constraint. -/
def Property.ensure_name_is_valid (conf : Config) (p : Property) : Res Unit :=
  conf.propertyNameConstraint.ensure_valid p.name.length .propNameTooShort .propNameTooLong

/-- The `Property::ensure_description_is_valid` check.  Modelled from the
spec. -/
def Property.ensure_description_is_valid (conf : Config) (p : Property) : Res Unit :=
  conf.propertyDescriptionConstraint.ensure_valid p.description.length
    .propDescriptionTooShort .propDescriptionTooLong

/-- The `Property::ensure_prop_type_size_is_valid` check.  Modelled from the
spec: declared text and vector maxima must fit the configured global
bounds. -/
def Property.ensure_prop_type_size_is_valid (conf : Config) (p : Property) : Res Unit :=
  let innerOk : Res Unit :=
    match p.prop_type.get_inner_type with
    | .textT m => if m ≤ conf.textMaxLengthConstraint then .ok () else .err .textTooLong
    | _ => .ok ()
  match p.prop_type with
  | .single _ => innerOk
  | .vec _ maxLen =>
    if maxLen ≤ conf.vecMaxLengthConstraint then innerOk else .err .vecTooLong

/-- The per-property loop of `add_class_schema`: name, description and type
sizes are valid, and the name is unique against `names` (initially the
names already used by the class). -/
def validate_new_properties (conf : Config) :
    List Property → List (List Nat) → Res Unit
  | [], _ => .ok ()
  | p :: rest, names =>
    match p.ensure_name_is_valid conf with
    | .err e => .err e
    | .ok _ =>
      match p.ensure_description_is_valid conf with
      | .err e => .err e
      | .ok _ =>
        match p.ensure_prop_type_size_is_valid conf with
        | .err e => .err e
        | .ok _ =>
          if p.name ∈ names then .err .propNameNotUnique
          else validate_new_properties conf rest (p.name :: names)

/-- The `add_class_schema` dispatchable (lead-only). -/
def add_class_schema (conf : Config) (st : State) (isLead : Bool) (class_id : Nat)
    (existing_properties : List Nat) (new_properties : List Property) :
    Res (State × List Event) :=
  if isLead = false then .err .leadAuthFailed
  else
    match lookupA class_id st.class_by_id with
    | none => .err .classNotFound
    | some cls =>
      match ensure_non_empty_schema existing_properties new_properties with
      | .err e => .err e
      | .ok _ =>
        match ensure_schemas_limit_not_reached conf cls with
        | .err e => .err e
        | .ok _ =>
          match ensure_properties_limit_not_reached conf cls new_properties with
          | .err e => .err e
          | .ok _ =>
            match validate_new_properties conf new_properties
                (cls.properties.map (fun p => p.name)) with
            | .err e => .err e
            | .ok _ =>
              if existing_properties.any (fun pid => cls.properties.length ≤ pid) then
                .err .schemaRefersUnknownPropIndex
              else if new_properties.any (fun p =>
                  match p.prop_type.get_inner_type with
                  | .reference cid _ => (lookupA cid st.class_by_id).isNone
                  | _ => false) then .err .schemaRefersUnknownClass
              else
                let base := cls.properties.length
                let new_ids := (List.range new_properties.length).map (fun i => base + i)
                let schema : Schema := ⟨existing_properties ++ new_ids, true⟩
                let newClasses := mutA class_id
                  (fun c => { c with
                    properties := c.properties ++ new_properties,
                    schemas := c.schemas ++ [schema] }) st.class_by_id
                .ok ({ st with class_by_id := newClasses },
                     [.classSchemaAdded class_id cls.schemas.length])

/-- The `ensure_entity_creation_not_blocked` check of `ClassPermissions`.
Modelled from the spec. -/
def ensure_entity_creation_not_blocked (cp : ClassPermissions) : Res Unit :=
  if cp.entity_creation_blocked then .err .entityCreationBlocked else .ok ()

/-- The `ensure_can_create_entities` check of `ClassPermissions`.  Modelled
from the spec (section 4.5, step 2): the lead, a maintainer of the class, or
any member when `any_member` is set. -/
def ensure_can_create_entities (st : State) (cp : ClassPermissions) (actor : Actor) : Res Unit :=
  match actor with
  | .lead => .ok ()
  | .curator g c =>
    if actorMaintainsClass st cp (.curator g c) then .ok () else .err .accessDenied
  | .member _ => if cp.any_member then .ok () else .err .accessDenied

/-- The `ensure_voucher_limit_not_reached` check of `Module<T>`. -/
def ensure_voucher_limit_not_reached (voucher : EntityCreationVoucher) : Res Unit :=
  if voucher.limit_not_reached then .ok () else .err .voucherLimitReached

/-- The `create_entity` dispatchable.  When a voucher for the pair
`(class_id, controller)` already exists its limit is checked and it is
incremented; otherwise a fresh voucher is synthesized at the class's
per-controller limit and incremented without any limit check, exactly as in
the source. -/
def create_entity (st : State) (signedOk : Bool) (class_id : Nat) (actor : Actor) :
    Res (State × List Event) :=
  if signedOk = false then .err .originNotSigned
  else
    match lookupA class_id st.class_by_id with
    | none => .err .classNotFound
    | some cls =>
      match ensure_maximum_entities_count_limit_not_reached cls with
      | .err e => .err e
      | .ok _ =>
        match ensure_entity_creation_not_blocked cls.class_permissions with
        | .err e => .err e
        | .ok _ =>
          match ensure_can_create_entities st cls.class_permissions actor with
          | .err e => .err e
          | .ok _ =>
            let entity_controller := EntityController.from_actor actor
            let voucherCheck : Res Bool :=
              match lookupA (class_id, entity_controller) st.entity_creation_vouchers with
              | some v =>
                match ensure_voucher_limit_not_reached v with
                | .err e => .err e
                | .ok _ => .ok true
              | none => .ok false
            match voucherCheck with
            | .err e => .err e
            | .ok voucher_exists =>
              let vouchers :=
                if voucher_exists then
                  mutA (class_id, entity_controller)
                    (fun v => v.increment_created_entities_count) st.entity_creation_vouchers
                else
                  setA (class_id, entity_controller)
                    ((EntityCreationVoucher.new
                        cls.per_controller_entity_creation_limit).increment_created_entities_count)
                    st.entity_creation_vouchers
              let entity_id := st.next_entity_id
              let new_entity := Entity.new entity_controller class_id [] []
              let newClasses := mutA class_id
                (fun c => { c with
                  current_number_of_entities := wadd64 c.current_number_of_entities 1 })
                st.class_by_id
              .ok ({ st with
                      entity_creation_vouchers := vouchers,
                      entity_by_id := setA entity_id new_entity st.entity_by_id,
                      next_entity_id := wadd64 st.next_entity_id 1,
                      class_by_id := newClasses },
                   [.entityCreated actor entity_id])

/-- The `EntityPermissions::ensure_group_can_remove_entity` check.  Modelled
from the spec (section 4.2): the controller and maintainer levels may
remove, the anonymous level may not. -/
def ensure_group_can_remove_entity (lvl : EntityAccessLevel) : Res Unit :=
  match lvl with
  | .entityController => .ok ()
  | .entityMaintainer => .ok ()
  | .anyLevel => .err .accessDenied

/-- The `ensure_rc_is_zero` check of `Module<T>`. -/
def ensure_rc_is_zero (st : State) (entity_id : Nat) : Res Unit :=
  if (entityOf st entity_id).reference_count = 0 then .ok () else .err .entityRcNonZero

/-- The `ensure_inbound_same_owner_rc_is_zero` check of `Module<T>`. -/
def ensure_inbound_same_owner_rc_is_zero (entity : Entity) : Res Unit :=
  if entity.inbound_same_owner_references_from_other_entities_count = 0 then .ok ()
  else .err .entityRcNonZero

/-- The `remove_entity` dispatchable. -/
def remove_entity (st : State) (signedOk : Bool) (actor : Actor) (entity_id : Nat) :
    Res (State × List Event) :=
  match ensure_class_entity_and_access_level st signedOk entity_id actor with
  | .err e => .err e
  | .ok (_, entity, access_level) =>
    match ensure_group_can_remove_entity access_level with
    | .err e => .err e
    | .ok _ =>
      match ensure_rc_is_zero st entity_id with
      | .err e => .err e
      | .ok _ =>
        let newEntities := removeA entity_id st.entity_by_id
        let newClasses := mutA entity.class_id
          (fun c => { c with
            current_number_of_entities := wsub64 c.current_number_of_entities 1 })
          st.class_by_id
        .ok ({ st with entity_by_id := newEntities, class_by_id := newClasses },
             [.entityRemoved actor entity_id])

/-- The `ensure_nonce_equality` check of `VecPropertyValue`.  Modelled from
the spec (section 4.1). -/
def VecValue.ensure_nonce_equality (v : VecValue) (nonce : Nat) : Res Unit :=
  if v.nonce = nonce then .ok () else .err .nonceMismatch

/-- The `ensure_class_property_type_unlocked_for` helper of `Module<T>`. -/
def ensure_class_property_type_unlocked_for (cls : Class) (prop_id : Nat)
    (lvl : EntityAccessLevel) : Res Property :=
  if cls.class_permissions.all_entity_property_values_locked then
    .err .allPropsLockedOnClassLevel
  else
    match cls.properties.get? prop_id with
    | none => .err .classPropNotFound
    | some p => if p.is_locked_from lvl then .err .propertyLockedForActor else .ok p

/-- The `ensure_prop_value_can_be_inserted_at_prop_vec` check of
`Property`.  Modelled from the spec (section 4.1): the index is at most the
length, the vector stays within its declared maximum, and the new element
validates against the inner type. -/
def ensure_prop_value_can_be_inserted_at_prop_vec (st : State) (p : Property)
    (value : SingleValue) (vec : VecValue) (index : Nat)
    (controller : EntityController) : Res Unit :=
  if index ≤ vec.vec_value.length then
    match p.prop_type with
    | .vec t maxLen =>
      if vec.vec_value.length + 1 ≤ maxLen then validate_single_value st t value controller
      else .err .vecTooLong
    | .single _ => .err .typeMismatch
  else .err .indexOutOfBounds

/-- The `vec_insert_at` mutator of `VecPropertyValue`: insert the element at
the index and bump the nonce.  Modelled from the spec. -/
def VecValue.vec_insert_at (v : VecValue) (index : Nat) (x : SingleValue) : VecValue :=
  ⟨v.vec_value.take index ++ x :: v.vec_value.drop index, (v.nonce + 1) % U64⟩

/-- The `insert_at_entity_property_vector` dispatchable.  When the entity
holds no vector value under the property id, the source's `if let` skips the
lock, nonce and validity checks entirely; the mutation block still runs,
incrementing the rc of the entity referenced by the supplied value (with
`same_owner = false`) and then writing the (unchanged) snapshot of the
target entity back.  The nested storage `mutate` semantics are made
explicit: the rc bump happens first, then the snapshot-derived entity is
written under `entity_id`, so a bump on `entity_id` itself is overwritten. -/
def insert_at_entity_property_vector (st : State) (signedOk : Bool) (actor : Actor)
    (entity_id prop_id index : Nat) (property_value : SingleValue) (nonce : Nat) :
    Res (State × List Event) :=
  match ensure_class_entity_and_access_level st signedOk entity_id actor with
  | .err e => .err e
  | .ok (cls, entity, access_level) =>
    let checks : Res Bool :=
      match lookupA prop_id entity.values with
      | some (.vector entity_prop_value) =>
        match ensure_class_property_type_unlocked_for cls prop_id access_level with
        | .err e => .err e
        | .ok class_prop =>
          match entity_prop_value.ensure_nonce_equality nonce with
          | .err e => .err e
          | .ok _ =>
            match ensure_prop_value_can_be_inserted_at_prop_vec st class_prop property_value
                entity_prop_value index entity.entity_permission.controller with
            | .err e => .err e
            | .ok _ => .ok class_prop.prop_type.same_controller_status
      | _ => .ok false
    match checks with
    | .err e => .err e
    | .ok same_owner =>
      let st1 :=
        match property_value.get_involved_entity with
        | some rid => increment_entity_rcs st rid 1 same_owner
        | none => st
      let updated :=
        match lookupA prop_id entity.values with
        | some (.vector current_prop_value) =>
          let newVals := setA prop_id
            (PropertyValue.vector (current_prop_value.vec_insert_at index property_value))
            entity.values
          (true, { entity with values := newVals })
        | _ => (false, entity)
      let st2 := { st1 with entity_by_id := setA entity_id updated.2 st1.entity_by_id }
      .ok (st2,
        if updated.1 then
          [.insertedAtEntityPropertyValueVectorIndex actor entity_id prop_id index nonce]
        else [])

/-- Declared class of the same-owner reference property under `pid` in
`cls`: the guard of the walker's match arm, which fires exactly when
`class_prop.prop_type.same_controller_status()` holds (the subsequent
`get_referenced_class_id().unwrap()` is then safe). -/
def sameOwnerRefClass (cls : Class) (pid : Nat) : Option Nat :=
  match cls.properties.get? pid with
  | some p =>
    match p.prop_type.get_inner_type with
    | .reference cid true => some cid
    | _ => none
  | none => none

mutual

/-- The recursive walker `retrieve_all_entities_to_perform_ownership_transfer`
of `Module<T>`, guarded by explicit fuel.  The Rust recursion terminates
because the visited set grows strictly; `transfer_entity_ownership` below
supplies fuel that provably suffices. -/
def retrieve_all_entities_to_perform_ownership_transfer (st : State) :
    Nat → Class → Entity → List Nat → List Nat
  | 0, _, _, s => s
  | fuel + 1, cls, e, s => retrieve_values_loop st fuel cls e.class_id e.values s

/-- The `for (id, value) in entity.values` loop inside the walker: for a
property with `same_controller` set, switch to the declared class when it
differs from the current entity's class, then collect that value's
targets. -/
def retrieve_values_loop (st : State) :
    Nat → Class → Nat → List (Nat × PropertyValue) → List Nat → List Nat
  | _, _, _, [], s => s
  | fuel, cls, ecid, pv :: rest, s =>
    let s2 :=
      match sameOwnerRefClass cls pv.1 with
      | some cid =>
        let cls2 := if cid ≠ ecid then classOf st cid else cls
        get_all_same_owner_entities st fuel cls2 pv.2 s
      | none => s
    retrieve_values_loop st fuel cls ecid rest s2

/-- The helper `get_all_same_owner_entities` of `Module<T>`. -/
def get_all_same_owner_entities (st : State) (fuel : Nat) (cls : Class)
    (v : PropertyValue) (s : List Nat) : List Nat :=
  same_owner_targets_loop st fuel cls (involvedD v) s

/-- The `for entity_id in entity_ids` loop inside
`get_all_same_owner_entities`: insert each unvisited id and recurse into
it. -/
def same_owner_targets_loop (st : State) :
    Nat → Class → List Nat → List Nat → List Nat
  | _, _, [], s => s
  | fuel, cls, t :: ts, s =>
    let s2 :=
      if t ∈ s then s
      else
        retrieve_all_entities_to_perform_ownership_transfer st fuel cls (entityOf st t) (t :: s)
    same_owner_targets_loop st fuel cls ts s2

end

/-- All ids referenced from any value of any stored entity.  Every id the
walker can ever insert (beyond the root) is in this list, so its length
bounds the recursion depth. -/
def allTargets (st : State) : List Nat :=
  st.entity_by_id.flatMap (fun p => p.2.values.flatMap (fun q => involvedD q.2))

/-- Fuel that provably suffices for a full traversal. -/
def transferFuel (st : State) : Nat := (allTargets st).length + 1

/-- The `set_conroller` mutator of `EntityPermissions`. -/
def set_controller (e : Entity) (c : EntityController) : Entity :=
  { e with entity_permission := { e.entity_permission with controller := c } }

/-- The `transfer_entity_ownership` dispatchable (lead-only). -/
def transfer_entity_ownership (st : State) (isLead : Bool) (entity_id : Nat)
    (new_controller : EntityController) : Res (State × List Event) :=
  if isLead = false then .err .leadAuthFailed
  else
    match lookupA entity_id st.entity_by_id with
    | none => .err .entityNotFound
    | some entity =>
      match ensure_inbound_same_owner_rc_is_zero entity with
      | .err e => .err e
      | .ok _ =>
        let cls := classOf st entity.class_id
        let entities := retrieve_all_entities_to_perform_ownership_transfer st
          (transferFuel st) cls entity [entity_id]
        let st2 := entities.foldl
          (fun acc i =>
            let m := mutA i (fun e => set_controller e new_controller) acc.entity_by_id
            { acc with entity_by_id := m }) st
        .ok (st2, [.entityOwnershipTransfered entity_id new_controller])

/-- Direct same-owner reference edge between entities: some value of `a`
sits under a property of `a`'s class declared as a `same_controller`
reference, and that value references `b`. -/
def sameOwnerEdge (st : State) (a b : Nat) : Prop :=
  ∃ pv ∈ (entityOf st a).values, ∃ cid,
    sameOwnerRefClass (classOf st (entityOf st a).class_id) pv.1 = some cid ∧
    b ∈ involvedD pv.2

/-- Reachability along same-owner reference edges. -/
def ReachSO (st : State) (a b : Nat) : Prop :=
  Relation.ReflTransGen (sameOwnerEdge st) a b

/-- Computable list of direct same-owner edge targets of `a`. -/
def edgeTargets (st : State) (a : Nat) : List Nat :=
  (entityOf st a).values.flatMap (fun pv =>
    match sameOwnerRefClass (classOf st (entityOf st a).class_id) pv.1 with
    | some _ => involvedD pv.2
    | none => [])

/-- Well-typedness of the stored same-owner references: a stored target of a
property declared `Reference(cid, same_controller)` belongs to class `cid`.
The write-time validator establishes this; the ownership-transfer walker
relies on it when it reuses the declared class for the target entity. -/
def wtOk (st : State) : Bool :=
  st.entity_by_id.all (fun p =>
    p.2.values.all (fun pv =>
      match sameOwnerRefClass (classOf st p.2.class_id) pv.1 with
      | some cid =>
        (involvedD pv.2).all (fun t =>
          match lookupA t st.entity_by_id with
          | some et => decide (et.class_id = cid)
          | none => true)
      | none => true))

/-- A fixed configuration used by the concrete evaluations below. -/
def conf0 : Config where
  propertyNameConstraint := ⟨1, 10⟩
  propertyDescriptionConstraint := ⟨1, 10⟩
  classNameConstraint := ⟨1, 10⟩
  classDescriptionConstraint := ⟨1, 10⟩
  maxNumberOfClasses := 100
  maxNumberOfMaintainersPerClass := 10
  maxNumberOfCuratorsPerGroup := 10
  numberOfSchemasPerClass := 10
  maxNumberOfPropertiesPerClass := 20
  maxNumberOfOperationsDuringAtomicBatching := 100
  vecMaxLengthConstraint := 100
  textMaxLengthConstraint := 100
  maxNumberOfEntitiesPerClass := 1000
  individualEntitiesCreationLimit := 500

/-- Fixture class for the `add_class_schema` evaluation: a fresh class with
no properties and no schemas. -/
def clsC3 : Class := Class.new default [99] [100] 10 5

/-- Fixture state holding only `clsC3` under class id `0`. -/
def stC3 : State := { (default : State) with class_by_id := [(0, clsC3)] }

/-- Fixture property: a plain optional boolean. -/
def propC3 : Property :=
  ⟨.single .boolT, false, false, [110], [100, 100], false, false⟩

/-- Fixture class for the voucher evaluation: room for five entities but a
per-controller creation limit of zero. -/
def clsC6 : Class := Class.new default [99] [100] 5 0

/-- Fixture state holding only `clsC6` under class id `9`, with no
vouchers. -/
def stC6 : State := { (default : State) with class_by_id := [(9, clsC6)] }

/-- Fixture reference-vector property (`same_controller` not set). -/
def propC1 : Property :=
  ⟨.vec (.reference 0 false) 10, false, false, [114], [], false, false⟩

/-- Fixture class declaring `propC1` under property id `0`. -/
def clsC1 : Class := { (default : Class) with properties := [propC1] }

/-- Fixture entity holding a one-element reference vector `[2]` under
property id `0`. -/
def entC1 : Entity :=
  { (default : Entity) with
    class_id := 0,
    values := [(0, .vector ⟨[.refV 2], 0⟩)] }

/-- Fixture state for the delta-truncation evaluation: entity `1` references
entity `2` (rc `1`); entity `3` is unreferenced (rc `0`). -/
def stC1 : State :=
  { (default : State) with
    class_by_id := [(0, clsC1)],
    entity_by_id :=
      [(1, entC1),
       (2, { (default : Entity) with class_id := 0, reference_count := 1 }),
       (3, { (default : Entity) with class_id := 0 })] }

/-- The `update_entity_property_values` call replacing the vector `[2]` with
`[2, 3]` on entity `1`. -/
def c1call : Res (State × List Event) :=
  update_entity_property_values stC1 true .lead 1 [(0, .vector ⟨[.refV 2, .refV 3], 0⟩)]

/-- Fixture entity for the no-op update evaluation. -/
def entC8 : Entity :=
  { (default : Entity) with class_id := 0, values := [(0, .single (.boolV true))] }

/-- Fixture state for the no-op update evaluation. -/
def stC8 : State :=
  { (default : State) with
    class_by_id := [(0, (default : Class))],
    entity_by_id := [(1, entC8)] }

/-- Fixture entity for the remove evaluation: rc `0`. -/
def entC5 : Entity := { (default : Entity) with class_id := 0 }

/-- Fixture class for the remove evaluation: one live entity. -/
def clsC5 : Class := { (default : Class) with current_number_of_entities := 1 }

/-- Fixture state for the remove evaluation: one class with one entity. -/
def stC5 : State :=
  { (default : State) with
    class_by_id := [(0, clsC5)],
    entity_by_id := [(1, entC5)] }

/-- Fixture entity with no property values, used for the insert-at
evaluations. -/
def entC9 : Entity := { (default : Entity) with class_id := 0 }

/-- Fixture state for the insert-at evaluations: entities `5` and `6` of the
default class. -/
def stC9 : State :=
  { (default : State) with
    class_by_id := [(0, (default : Class))],
    entity_by_id := [(5, entC9), (6, entC9)] }

/-- Fixture state for the wrapping-decrement evaluation: entity `4` with
both counters at zero. -/
def stC7 : State := { (default : State) with entity_by_id := [(4, (default : Entity))] }

/-- Number of ids the walker can still insert: referenced ids not yet in the
visited list.  Each recursive descent of the walker inserts one such id, so
this measure bounds the fuel it needs. -/
def missingCount (st : State) (s : List Nat) : Nat :=
  ((allTargets st).toFinset \ s.toFinset).card

/-- Fixture property for the ownership-transfer evaluation: a single
same-controller reference into class `0`. -/
def propC2 : Property :=
  ⟨.single (.reference 0 true), false, false, [115], [], false, false⟩

/-- Fixture class for the ownership-transfer evaluation. -/
def clsC2 : Class := { (default : Class) with properties := [propC2] }

/-- Fixture root entity: controlled by member `1`, same-owner reference to
entity `11`. -/
def entC2root : Entity :=
  { (default : Entity) with
    entity_permission := ⟨.member 1, false, true⟩,
    class_id := 0,
    values := [(0, .single (.refV 11))] }

/-- Fixture child entity: controlled by member `1`, one inbound same-owner
reference. -/
def entC2child : Entity :=
  { (default : Entity) with
    entity_permission := ⟨.member 1, false, true⟩,
    class_id := 0,
    reference_count := 1,
    inbound_same_owner_references_from_other_entities_count := 1 }

/-- Fixture bystander entity: controlled by member `2`, unrelated. -/
def entC2other : Entity :=
  { (default : Entity) with
    entity_permission := ⟨.member 2, false, true⟩,
    class_id := 0 }

/-- Fixture state for the ownership-transfer evaluation. -/
def stC2 : State :=
  { (default : State) with
    class_by_id := [(0, clsC2)],
    entity_by_id := [(10, entC2root), (11, entC2child), (12, entC2other)] }

/-- Soundness invariant of the walker at the entity level: starting from a
`G`-node with the matching class (or a valueless entity), only `G`-nodes are
collected, provided the visited list holds only `G`-nodes. -/
def SoundE (st : State) (G : Nat → Prop) (fuel : Nat) : Prop :=
  ∀ a cls s,
    (cls = classOf st (entityOf st a).class_id ∨ (entityOf st a).values = []) →
    G a → (∀ x ∈ s, G x) →
    ∀ x ∈ retrieve_all_entities_to_perform_ownership_transfer st fuel cls (entityOf st a) s,
      G x

/-- Soundness invariant at the targets-loop level. -/
def SoundT (st : State) (G : Nat → Prop) (fuel : Nat) : Prop :=
  ∀ a cls2 ts s,
    (∀ t ∈ ts, sameOwnerEdge st a t) →
    (∀ t ∈ ts, cls2 = classOf st (entityOf st t).class_id ∨ (entityOf st t).values = []) →
    G a → (∀ x ∈ s, G x) →
    ∀ x ∈ same_owner_targets_loop st fuel cls2 ts s, G x

/-- Soundness invariant at the values-loop level. -/
def SoundV (st : State) (G : Nat → Prop) (fuel : Nat) : Prop :=
  ∀ a cls s vals,
    cls = classOf st (entityOf st a).class_id →
    (∀ pv ∈ vals, pv ∈ (entityOf st a).values) →
    G a → (∀ x ∈ s, G x) →
    ∀ x ∈ retrieve_values_loop st fuel cls (entityOf st a).class_id vals s, G x

/-- Completeness invariant at the entity level: with enough fuel the walker
collects every direct target of the processed entity, and its result is
closed under edges at every freshly collected node. -/
def ClosedE (st : State) (fuel : Nat) : Prop :=
  ∀ a cls s,
    (cls = classOf st (entityOf st a).class_id ∨ (entityOf st a).values = []) →
    missingCount st s < fuel →
    (∀ y ∈ edgeTargets st a,
      y ∈ retrieve_all_entities_to_perform_ownership_transfer st fuel cls (entityOf st a) s) ∧
    (∀ x ∈ retrieve_all_entities_to_perform_ownership_transfer st fuel cls (entityOf st a) s,
      x ∉ s → ∀ y ∈ edgeTargets st x,
        y ∈ retrieve_all_entities_to_perform_ownership_transfer st fuel cls (entityOf st a) s)

/-- Completeness invariant at the targets-loop level. -/
def ClosedT (st : State) (fuel : Nat) : Prop :=
  ∀ cls2 ts s,
    (∀ t ∈ ts, t ∈ allTargets st) →
    (∀ t ∈ ts, cls2 = classOf st (entityOf st t).class_id ∨ (entityOf st t).values = []) →
    missingCount st s ≤ fuel →
    (∀ t ∈ ts, t ∈ same_owner_targets_loop st fuel cls2 ts s) ∧
    (∀ x ∈ same_owner_targets_loop st fuel cls2 ts s, x ∉ s →
      ∀ y ∈ edgeTargets st x, y ∈ same_owner_targets_loop st fuel cls2 ts s)

/-- Completeness invariant at the values-loop level. -/
def ClosedV (st : State) (fuel : Nat) : Prop :=
  ∀ a cls s vals,
    cls = classOf st (entityOf st a).class_id →
    (∀ pv ∈ vals, pv ∈ (entityOf st a).values) →
    missingCount st s ≤ fuel →
    (∀ pv ∈ vals, ∀ cid, sameOwnerRefClass cls pv.1 = some cid →
      ∀ t ∈ involvedD pv.2,
        t ∈ retrieve_values_loop st fuel cls (entityOf st a).class_id vals s) ∧
    (∀ x ∈ retrieve_values_loop st fuel cls (entityOf st a).class_id vals s, x ∉ s →
      ∀ y ∈ edgeTargets st x,
        y ∈ retrieve_values_loop st fuel cls (entityOf st a).class_id vals s)

/-! Shared lemmas about the association-list storage model. -/

theorem lookupA_setA_self {κ α : Type} [DecidableEq κ] (k : κ) (v : α) (l : List (κ × α)) :
    lookupA k (setA k v l) = some v := by
  induction l with
  | nil => simp [setA, lookupA]
  | cons p rest ih =>
    by_cases h : k = p.1 <;> simp [setA, lookupA, h, ih]

theorem lookupA_setA_ne {κ α : Type} [DecidableEq κ] (k j : κ) (v : α) (l : List (κ × α))
    (h : j ≠ k) : lookupA j (setA k v l) = lookupA j l := by
  induction l with
  | nil => simp [setA, lookupA, h]
  | cons p rest ih =>
    by_cases hk : k = p.1
    · subst hk
      simp [setA, lookupA, h, ih]
    · by_cases hj : j = p.1 <;> simp [setA, lookupA, hk, hj, ih]

theorem getD_setA_self {κ α : Type} [DecidableEq κ] [Inhabited α] (k : κ) (v : α)
    (l : List (κ × α)) : getD k (setA k v l) = v := by
  simp [getD, lookupA_setA_self]

theorem getD_setA_ne {κ α : Type} [DecidableEq κ] [Inhabited α] (k j : κ) (v : α)
    (l : List (κ × α)) (h : j ≠ k) : getD j (setA k v l) = getD j l := by
  simp [getD, lookupA_setA_ne _ _ _ _ h]

theorem getD_mutA_self {κ α : Type} [DecidableEq κ] [Inhabited α] (k : κ) (f : α → α)
    (l : List (κ × α)) : getD k (mutA k f l) = f (getD k l) := by
  simp [mutA, getD_setA_self]

theorem getD_mutA_ne {κ α : Type} [DecidableEq κ] [Inhabited α] (k j : κ) (f : α → α)
    (l : List (κ × α)) (h : j ≠ k) : getD j (mutA k f l) = getD j l := by
  simp [mutA, getD_setA_ne _ _ _ _ h]

theorem getD_of_lookupA {κ α : Type} [DecidableEq κ] [Inhabited α] {k : κ} {l : List (κ × α)}
    {v : α} (h : lookupA k l = some v) : getD k l = v := by
  simp [getD, h]

theorem lookupA_removeA_self {κ α : Type} [DecidableEq κ] (k : κ) (l : List (κ × α)) :
    lookupA k (removeA k l) = none := by
  induction l with
  | nil => simp [removeA, lookupA]
  | cons p rest ih =>
    by_cases h : p.1 = k
    · simpa [removeA, h] using ih
    · have : ¬ k = p.1 := fun hk => h hk.symm
      simp [removeA, lookupA, h, this]
      simpa [removeA] using ih

/-- The access helper only succeeds on a stored entity, and returns exactly
that entity together with the class fetched from its `class_id`. -/
theorem access_ok_lookup {st : State} {signedOk : Bool} {entity_id : Nat} {actor : Actor}
    {cls : Class} {ent : Entity} {lvl : EntityAccessLevel}
    (h : ensure_class_entity_and_access_level st signedOk entity_id actor = .ok (cls, ent, lvl)) :
    lookupA entity_id st.entity_by_id = some ent ∧ cls = classOf st ent.class_id := by
  unfold ensure_class_entity_and_access_level at h
  cases hsb : signedOk with
  | false => rw [hsb] at h; simp at h
  | true =>
    rw [hsb] at h
    simp only [Bool.true_eq_false, if_false] at h
    cases hl : lookupA entity_id st.entity_by_id with
    | none => rw [hl] at h; exact absurd h (by simp)
    | some e =>
      rw [hl] at h
      dsimp only at h
      cases hd : EntityAccessLevel.derive st e.entity_permission
          (classOf st e.class_id).class_permissions actor with
      | ok l2 =>
        rw [hd] at h
        simp only [Res.ok.injEq, Prod.mk.injEq] at h
        obtain ⟨h1, h2, h3⟩ := h
        subst h2
        exact ⟨rfl, h1.symm⟩
      | err e2 => rw [hd] at h; exact absurd h (by simp)

/-- C10: `ensure_valid` truncates the length to 16 bits; under a
non-overflowing constraint it accepts exactly the lengths whose 16-bit
truncation lies in `[min, min + max_min_diff]`, so a class name of byte
length `2^16 + min` passes `create_class`'s name validation. -/
theorem c10_length_validation_truncates (c : InputValidationLengthConstraint)
    (tooShort tooLong : Err) (hc : c.min + c.max_min_diff < U16) :
    (∀ len : Nat, c.ensure_valid len tooShort tooLong = .ok () ↔
      (c.min ≤ len % U16 ∧ len % U16 ≤ c.min + c.max_min_diff)) ∧
    (∀ conf : Config, conf.classNameConstraint = c →
      ensure_class_name_is_valid conf (List.replicate (U16 + c.min) 0) = .ok ()) := by
  have hmax : c.max = c.min + c.max_min_diff := Nat.mod_eq_of_lt hc
  have hmin : c.min < U16 := lt_of_le_of_lt (Nat.le_add_right _ _) hc
  constructor
  · intro len
    unfold InputValidationLengthConstraint.ensure_valid
    rw [hmax]
    constructor
    · intro h
      by_cases h1 : len % U16 < c.min
      · simp [h1] at h
      · by_cases h2 : len % U16 > c.min + c.max_min_diff
        · simp [h1, h2] at h
        · omega
    · intro ⟨h1, h2⟩
      have h1' : ¬ len % U16 < c.min := by omega
      have h2' : ¬ len % U16 > c.min + c.max_min_diff := by omega
      simp [h1', h2']
  · intro conf hconf
    unfold ensure_class_name_is_valid
    rw [hconf]
    unfold InputValidationLengthConstraint.ensure_valid
    rw [hmax]
    have hlen : (List.replicate (U16 + c.min) (0 : Nat)).length = U16 + c.min := by
      simp
    rw [hlen]
    have : (U16 + c.min) % U16 = c.min := by
      rw [Nat.add_mod_left]
      exact Nat.mod_eq_of_lt hmin
    rw [this]
    have h1' : ¬ c.min < c.min := by omega
    have h2' : ¬ c.min > c.min + c.max_min_diff := by omega
    simp [h1', h2']

/-- Witness for C10 at the concrete constraint `(min 1, diff 10)` and the
length `65537 = 2^16 + 1`, which is accepted although it vastly exceeds the
declared maximum `11`. -/
theorem c10_length_validation_truncates_witness :
    (1 + 10 < U16) ∧
    (InputValidationLengthConstraint.ensure_valid ⟨1, 10⟩ 65537
      Err.classNameTooShort Err.classNameTooLong = .ok ()) :=
  ⟨by decide,
   ((c10_length_validation_truncates ⟨1, 10⟩ Err.classNameTooShort Err.classNameTooLong
      (by decide)).1 65537).mpr (by decide)⟩

/-- C7 (code bug): the counter arithmetic is plain wrapping `+=`/`-=` with
no error path at all (`decrement_entity_rcs` and `increment_entity_rcs`
return a plain `State`, never an `InternalInvariantBroken` error).
Decrementing the zero reference counter of entity `4` wraps to
`2^32 - 1`, and incrementing a counter at `2^32 - 1` wraps to `0`. -/
theorem c7_rc_arithmetic_wraps :
    (entityOf (decrement_entity_rcs stC7 4 1 false) 4).reference_count = U32 - 1 ∧
    (entityOf (increment_entity_rcs (decrement_entity_rcs stC7 4 1 false) 4 1 false)
      4).reference_count = 0 ∧
    (entityOf (decrement_entity_rcs stC7 4 1 true)
      4).inbound_same_owner_references_from_other_entities_count = U32 - 1 := by
  refine ⟨?_, ?_, ?_⟩ <;> rfl

/-- C4 (code bug): the class-count guard is inverted
(`ensure!(MaxNumberOfClasses < count)`), so `create_class` with entirely
valid inputs on an empty store fails with `ClassLimitReached` even though
zero classes exist and the configured limit is `100`; in general the guard
accepts exactly when the limit is strictly below the current count. -/
theorem c4_class_limit_check_inverted :
    (create_class conf0 default true [97] [98] default 10 5 = .err .classLimitReached) ∧
    (∀ (conf : Config) (st : State),
      (ensure_class_limit_not_reached conf st).isOk =
        decide (conf.maxNumberOfClasses < st.class_by_id.length)) := by
  constructor
  · rfl
  · intro conf st
    by_cases h : conf.maxNumberOfClasses < st.class_by_id.length <;>
      simp [ensure_class_limit_not_reached, h, Res.isOk]

/-- C3 (code bug): the properties-count guard is inverted
(`ensure!(MaxNumberOfPropertiesPerClass <= current + new)`), accepting
exactly when the limit is at most the combined count; moreover the
schemas-count guard is inverted the same way, so `add_class_schema` on a
fresh class with one valid property (combined count `1`, limit `20`) fails
with the schemas-limit error instead of succeeding. -/
theorem c3_properties_limit_check_inverted :
    (add_class_schema conf0 stC3 true 0 [] [propC3] = .err .classSchemasLimitReached) ∧
    (ensure_properties_limit_not_reached conf0 clsC3 [propC3] =
      .err .classPropertiesLimitReached) ∧
    (∀ (conf : Config) (cls : Class) (new_properties : List Property),
      (ensure_properties_limit_not_reached conf cls new_properties).isOk =
        decide (conf.maxNumberOfPropertiesPerClass ≤
          cls.properties.length + new_properties.length)) := by
  refine ⟨rfl, rfl, ?_⟩
  intro conf cls new_properties
  by_cases h : conf.maxNumberOfPropertiesPerClass ≤
      cls.properties.length + new_properties.length <;>
    simp [ensure_properties_limit_not_reached, h, Res.isOk]

/-- C6 (code bug): when no voucher exists for `(class, controller)`,
`create_entity` performs no voucher-limit check at all; with the class's
per-controller limit at `0` the call succeeds and synthesizes a voucher
with `entities_created = 1 > 0 = maximum_entities_count`, violating the
voucher invariant instead of failing with `VoucherLimitReached`. -/
theorem c6_create_entity_voucher_unchecked_when_absent :
    (create_entity stC6 true 9 .lead).isOk = true ∧
    voucherOf (Res.valOf (create_entity stC6 true 9 .lead)).1 9 .lead =
      ⟨0, 1⟩ := by
  exact ⟨rfl, rfl⟩

/-- C1 (code bug): the RC delta computation pairs old and new reference
lists with `zip`, which truncates at the shorter list; replacing the vector
`[2]` with `[2, 3]` succeeds but applies no delta at all, leaving entity
`3` with `reference_count = 0` although one slot now references it, so the
claimed invariant fails exactly when the old and new vectors have different
lengths. -/
theorem c1_update_rc_delta_truncation_bug :
    c1call.isOk = true ∧
    refSlotCount (Res.valOf c1call).1 3 = 1 ∧
    (entityOf (Res.valOf c1call).1 3).reference_count = 0 ∧
    (entityOf (Res.valOf c1call).1 2).reference_count = 1 ∧
    rc_delta_pairs [2] [2, 3] = ([], []) := by
  refine ⟨rfl, rfl, rfl, rfl, rfl⟩

/-- The update loop is the identity (no staged write, no deltas) when every
supplied pair equals the entity's current value. -/
theorem update_values_loop_noop (st : State) (cls : Class) (entity : Entity)
    (lvl : EntityAccessLevel) (inc dec : EntitiesRc) (base : List (Nat × PropertyValue)) :
    ∀ vals : List (Nat × PropertyValue),
      (∀ p ∈ vals, lookupA p.1 base = some p.2) →
      update_values_loop st cls entity lvl vals base false inc dec =
        .ok (base, false, inc, dec) := by
  intro vals
  induction vals with
  | nil => intro _; rfl
  | cons p rest ih =>
    intro h
    have h1 : lookupA p.1 base = some p.2 := h p (by simp)
    obtain ⟨id, v⟩ := p
    unfold update_values_loop
    rw [h1]
    dsimp only
    rw [if_pos rfl]
    exact ih (fun q hq => h q (by simp [hq]))

/-- C8: an authorized `update_entity_property_values` call (the class-level
lock, an authorization error in the spec's taxonomy, passes) in which every
supplied pair carries the entity's current value returns `Ok`, leaves the
storage untouched and emits no event. -/
theorem c8_update_with_current_values_noop
    (st : State) (signedOk : Bool) (actor : Actor) (entity_id : Nat)
    (vals : List (Nat × PropertyValue)) (cls : Class) (entity : Entity)
    (lvl : EntityAccessLevel)
    (hacc : ensure_class_entity_and_access_level st signedOk entity_id actor =
      .ok (cls, entity, lvl))
    (hlock : cls.class_permissions.all_entity_property_values_locked = false)
    (hvals : ∀ p ∈ vals, lookupA p.1 entity.values = some p.2) :
    update_entity_property_values st signedOk actor entity_id vals = .ok (st, []) := by
  unfold update_entity_property_values
  rw [hacc]
  dsimp only
  rw [hlock]
  simp only [Bool.false_eq_true, if_false]
  rw [update_values_loop_noop st cls entity lvl default default entity.values vals hvals]
  rfl

/-- Witness for C8 on a concrete store: resubmitting the lone current value
of entity `1` is accepted and changes nothing. -/
theorem c8_update_with_current_values_noop_witness :
    (ensure_class_entity_and_access_level stC8 true 1 .lead =
      .ok ((default : Class), entC8, .entityController)) ∧
    update_entity_property_values stC8 true .lead 1 [(0, .single (.boolV true))] =
      .ok (stC8, []) :=
  ⟨by decide,
   c8_update_with_current_values_noop stC8 true .lead 1 [(0, .single (.boolV true))]
     (default : Class) entC8 .entityController (by decide) (by decide) (by decide)⟩

/-- C5: for an authorized actor `remove_entity` succeeds exactly when the
entity's `reference_count` is zero; a non-zero counter yields
`EntityRcNonZero` (and, the result being an error, no state change); on
success the entity is removed from storage and its class's entity counter
is decremented by one (`u64` wrapping subtraction). -/
theorem c5_remove_entity_rc_guard
    (st : State) (signedOk : Bool) (actor : Actor) (entity_id : Nat)
    (cls : Class) (entity : Entity) (lvl : EntityAccessLevel)
    (hacc : ensure_class_entity_and_access_level st signedOk entity_id actor =
      .ok (cls, entity, lvl))
    (hlvl : ensure_group_can_remove_entity lvl = .ok ()) :
    ((remove_entity st signedOk actor entity_id).isOk = true ↔
      entity.reference_count = 0) ∧
    (entity.reference_count ≠ 0 →
      remove_entity st signedOk actor entity_id = .err .entityRcNonZero) ∧
    (entity.reference_count = 0 →
      remove_entity st signedOk actor entity_id =
        .ok ({ st with
                entity_by_id := removeA entity_id st.entity_by_id,
                class_by_id := mutA entity.class_id (fun c =>
                  { c with current_number_of_entities :=
                      wsub64 c.current_number_of_entities 1 }) st.class_by_id },
             [.entityRemoved actor entity_id]) ∧
      lookupA entity_id
        (Res.valOf (remove_entity st signedOk actor entity_id)).1.entity_by_id = none ∧
      (classOf (Res.valOf (remove_entity st signedOk actor entity_id)).1
          entity.class_id).current_number_of_entities =
        wsub64 (classOf st entity.class_id).current_number_of_entities 1) := by
  have hl := (access_ok_lookup hacc).1
  have hent : entityOf st entity_id = entity := getD_of_lookupA hl
  have main : remove_entity st signedOk actor entity_id =
      (if entity.reference_count = 0 then
        .ok ({ st with
                entity_by_id := removeA entity_id st.entity_by_id,
                class_by_id := mutA entity.class_id (fun c =>
                  { c with current_number_of_entities :=
                      wsub64 c.current_number_of_entities 1 }) st.class_by_id },
             [.entityRemoved actor entity_id])
      else .err .entityRcNonZero) := by
    unfold remove_entity
    rw [hacc]
    dsimp only
    rw [hlvl]
    dsimp only
    unfold ensure_rc_is_zero
    rw [hent]
    by_cases hrc : entity.reference_count = 0
    · rw [if_pos hrc, if_pos hrc]
    · rw [if_neg hrc, if_neg hrc]
  by_cases hrc : entity.reference_count = 0
  · rw [main, if_pos hrc]
    refine ⟨by simp [Res.isOk, hrc], fun hn => absurd hrc hn, fun _ => ⟨rfl, ?_, ?_⟩⟩
    · dsimp only [Res.valOf]
      exact lookupA_removeA_self _ _
    · dsimp only [Res.valOf]
      unfold classOf
      rw [getD_mutA_self]
  · rw [main, if_neg hrc]
    exact ⟨by simp [Res.isOk, hrc], fun _ => rfl, fun hz => absurd hz hrc⟩

/-- Witness for C5 on a concrete store: entity `1` has rc `0`, the call
succeeds, removes it and drops the class counter from `1` to `0`. -/
theorem c5_remove_entity_rc_guard_witness :
    ((remove_entity stC5 true .lead 1).isOk = true ↔ entC5.reference_count = 0) ∧
    entC5.reference_count = 0 :=
  ⟨(c5_remove_entity_rc_guard stC5 true .lead 1 clsC5 entC5 .entityController
      (by decide) (by decide)).1,
   by decide⟩

/-- C9 (counterexample to the claim as stated): when the supplied value
references the target entity itself, the nested storage `mutate` that bumps
the reference counter is overwritten by the outer `mutate`'s write-back of
the snapshot, so the counter is not incremented: the call returns the store
completely unchanged. -/
theorem c9_insert_at_self_reference_counterexample :
    insert_at_entity_property_vector stC9 true .lead 5 0 0 (.refV 5) 0 = .ok (stC9, []) ∧
    (entityOf (Res.valOf (insert_at_entity_property_vector stC9 true .lead 5 0 0
        (.refV 5) 0)).1 5).reference_count = 0 := by
  exact ⟨rfl, rfl⟩

/-- C9 (amended): an authorized `insert_at_entity_property_vector` call on a
property id holding no vector value returns `Ok` with no event, performs
none of the nonce, lock or validity checks (no hypothesis about them is
needed), leaves the target entity untouched — and still bumps the reference
counter (`u32` wrapping, `same_owner = false`) of the entity referenced by
the supplied value whenever that entity differs from the target. -/
theorem c9_insert_at_nonvector_amended
    (st : State) (signedOk : Bool) (actor : Actor) (entity_id prop_id index : Nat)
    (value : SingleValue) (nonce : Nat)
    (cls : Class) (entity : Entity) (lvl : EntityAccessLevel)
    (hacc : ensure_class_entity_and_access_level st signedOk entity_id actor =
      .ok (cls, entity, lvl))
    (hshape : ∀ vv : VecValue, lookupA prop_id entity.values ≠ some (.vector vv)) :
    (insert_at_entity_property_vector st signedOk actor entity_id prop_id index
      value nonce).isOk = true ∧
    (Res.valOf (insert_at_entity_property_vector st signedOk actor entity_id prop_id index
      value nonce)).2 = [] ∧
    entityOf (Res.valOf (insert_at_entity_property_vector st signedOk actor entity_id prop_id
      index value nonce)).1 entity_id = entity ∧
    (∀ rid, value.get_involved_entity = some rid → rid ≠ entity_id →
      entityOf (Res.valOf (insert_at_entity_property_vector st signedOk actor entity_id
          prop_id index value nonce)).1 rid =
        { entityOf st rid with
            reference_count := wadd32 (entityOf st rid).reference_count 1 }) := by
  unfold insert_at_entity_property_vector
  rw [hacc]
  dsimp only
  rcases hvv : lookupA prop_id entity.values with _ | pv
  · dsimp only
    rcases hr : value.get_involved_entity with _ | rid0
    · dsimp only
      refine ⟨rfl, rfl, getD_setA_self _ _ _, ?_⟩
      intro rid heq
      exact absurd heq (by simp)
    · dsimp only
      refine ⟨rfl, rfl, getD_setA_self _ _ _, ?_⟩
      intro rid heq hne
      have hr0 : rid0 = rid := by injection heq
      subst hr0
      unfold entityOf
      dsimp only [Res.valOf]
      rw [getD_setA_ne _ _ _ _ hne]
      unfold increment_entity_rcs
      dsimp only
      rw [getD_mutA_self]
      rfl
  · cases pv with
    | single sv =>
      dsimp only
      rcases hr : value.get_involved_entity with _ | rid0
      · dsimp only
        refine ⟨rfl, rfl, getD_setA_self _ _ _, ?_⟩
        intro rid heq
        exact absurd heq (by simp)
      · dsimp only
        refine ⟨rfl, rfl, getD_setA_self _ _ _, ?_⟩
        intro rid heq hne
        have hr0 : rid0 = rid := by injection heq
        subst hr0
        unfold entityOf
        dsimp only [Res.valOf]
        rw [getD_setA_ne _ _ _ _ hne]
        unfold increment_entity_rcs
        dsimp only
        rw [getD_mutA_self]
        rfl
    | vector vv => exact absurd hvv (hshape vv)

/-- Witness for C9 (amended) on a concrete store: inserting a reference to
entity `6` under a property id entity `5` holds nothing under succeeds,
leaves entity `5` untouched and bumps entity `6`'s rc to `1`. -/
theorem c9_insert_at_nonvector_amended_witness :
    (∀ vv : VecValue, lookupA 0 entC9.values ≠ some (.vector vv)) ∧
    (insert_at_entity_property_vector stC9 true .lead 5 0 0 (.refV 6) 0).isOk = true ∧
    (Res.valOf (insert_at_entity_property_vector stC9 true .lead 5 0 0 (.refV 6) 0)).2 = [] ∧
    entityOf (Res.valOf (insert_at_entity_property_vector stC9 true .lead 5 0 0
      (.refV 6) 0)).1 5 = entC9 ∧
    (∀ rid, (SingleValue.refV 6).get_involved_entity = some rid → rid ≠ 5 →
      entityOf (Res.valOf (insert_at_entity_property_vector stC9 true .lead 5 0 0
          (.refV 6) 0)).1 rid =
        { entityOf stC9 rid with
            reference_count := wadd32 (entityOf stC9 rid).reference_count 1 }) := by
  have hsh : ∀ vv : VecValue, lookupA 0 entC9.values ≠ some (.vector vv) := by
    intro vv
    simp [entC9, lookupA]
  have h := c9_insert_at_nonvector_amended stC9 true .lead 5 0 0 (.refV 6) 0
    (default : Class) entC9 .entityController (by decide) hsh
  exact ⟨hsh, h.1, h.2.1, h.2.2.1, h.2.2.2⟩

/-! Lemmas for the ownership-transfer walker (C2). -/

theorem lookupA_mem {κ α : Type} [DecidableEq κ] {k : κ} {l : List (κ × α)} {v : α}
    (h : lookupA k l = some v) : (k, v) ∈ l := by
  induction l with
  | nil => simp [lookupA] at h
  | cons p rest ih =>
    by_cases hk : k = p.1
    · rw [lookupA, if_pos hk] at h
      obtain rfl : p.2 = v := by injection h
      rw [hk, Prod.mk.eta]
      exact List.mem_cons_self _ _
    · rw [lookupA, if_neg hk] at h
      exact List.mem_cons_of_mem _ (ih h)

theorem entityOf_default {st : State} {a : Nat}
    (h : lookupA a st.entity_by_id = none) : entityOf st a = default := by
  simp [entityOf, getD, h]

theorem default_entity_values : (default : Entity).values = [] := rfl

/-- Propositional form of the well-typedness checker. -/
theorem wt_spec {st : State} (hw : wtOk st = true) :
    ∀ {a : Nat} {e : Entity}, lookupA a st.entity_by_id = some e →
    ∀ pv ∈ e.values, ∀ {cid : Nat},
      sameOwnerRefClass (classOf st e.class_id) pv.1 = some cid →
    ∀ t ∈ involvedD pv.2, ∀ {et : Entity},
      lookupA t st.entity_by_id = some et → et.class_id = cid := by
  intro a e hae pv hpv cid hso t ht et hts
  unfold wtOk at hw
  rw [List.all_eq_true] at hw
  have h1 := hw (a, e) (lookupA_mem hae)
  rw [List.all_eq_true] at h1
  have h2 := h1 pv hpv
  rw [hso] at h2
  rw [List.all_eq_true] at h2
  have h3 := h2 t ht
  rw [hts] at h3
  exact of_decide_eq_true h3

/-- Membership in `edgeTargets` is exactly the direct same-owner edge. -/
theorem edgeTargets_mem {st : State} {a b : Nat} :
    b ∈ edgeTargets st a ↔ sameOwnerEdge st a b := by
  unfold edgeTargets sameOwnerEdge
  rw [List.mem_flatMap]
  constructor
  · rintro ⟨pv, hpv, hb⟩
    refine ⟨pv, hpv, ?_⟩
    cases hso : sameOwnerRefClass (classOf st (entityOf st a).class_id) pv.1 with
    | none => rw [hso] at hb; simp at hb
    | some cid =>
      rw [hso] at hb
      exact ⟨cid, rfl, hb⟩
  · rintro ⟨pv, hpv, cid, hso, hb⟩
    refine ⟨pv, hpv, ?_⟩
    rw [hso]
    exact hb

/-- Referenced ids of stored entities are in `allTargets`. -/
theorem involved_mem_allTargets {st : State} {a : Nat} {e : Entity}
    {pv : Nat × PropertyValue} {t : Nat}
    (hae : lookupA a st.entity_by_id = some e) (hpv : pv ∈ e.values)
    (ht : t ∈ involvedD pv.2) : t ∈ allTargets st := by
  unfold allTargets
  rw [List.mem_flatMap]
  exact ⟨(a, e), lookupA_mem hae, by rw [List.mem_flatMap]; exact ⟨pv, hpv, ht⟩⟩

/-- Inserting a fresh referenced id strictly shrinks the missing count. -/
theorem missingCount_cons_lt {st : State} {s : List Nat} {t : Nat}
    (hta : t ∈ allTargets st) (hts : t ∉ s) :
    missingCount st (t :: s) + 1 = missingCount st s := by
  unfold missingCount
  have htd : t ∈ (allTargets st).toFinset \ s.toFinset := by
    rw [Finset.mem_sdiff, List.mem_toFinset, List.mem_toFinset]
    exact ⟨hta, hts⟩
  have : (allTargets st).toFinset \ (t :: s).toFinset =
      ((allTargets st).toFinset \ s.toFinset).erase t := by
    ext x
    simp only [Finset.mem_sdiff, List.mem_toFinset, Finset.mem_erase, List.mem_cons]
    constructor
    · rintro ⟨hx1, hx2⟩
      exact ⟨fun hxt => hx2 (Or.inl hxt), hx1, fun hx3 => hx2 (Or.inr hx3)⟩
    · rintro ⟨hx1, hx2, hx3⟩
      exact ⟨hx2, fun hx4 => hx4.elim hx1 hx3⟩
  rw [this, Finset.card_erase_of_mem htd]
  have hpos : 0 < ((allTargets st).toFinset \ s.toFinset).card :=
    Finset.card_pos.mpr ⟨t, htd⟩
  omega

/-- A superset of visited ids has a missing count that is no larger. -/
theorem missingCount_le_of_subset {st : State} {s s2 : List Nat}
    (h : ∀ x ∈ s, x ∈ s2) : missingCount st s2 ≤ missingCount st s := by
  unfold missingCount
  apply Finset.card_le_card
  intro x hx
  rw [Finset.mem_sdiff, List.mem_toFinset] at hx ⊢
  rw [List.mem_toFinset]
  exact ⟨hx.1, fun hx2 => hx.2 (List.mem_toFinset.mpr (h x (List.mem_toFinset.mp
    (List.mem_toFinset.mpr hx2))))⟩

/-- The missing count is bounded by the traversal fuel the dispatchable
supplies. -/
theorem missingCount_lt_transferFuel (st : State) (s : List Nat) :
    missingCount st s < transferFuel st := by
  unfold missingCount transferFuel
  have h1 : ((allTargets st).toFinset \ s.toFinset).card ≤ (allTargets st).toFinset.card :=
    Finset.card_le_card (Finset.sdiff_subset)
  have h2 : (allTargets st).toFinset.card ≤ (allTargets st).length :=
    (allTargets st).toFinset_card_le
  omega

/-- The visited list only grows, at all three levels of the walker. -/
theorem walker_mono (st : State) :
    ∀ fuel : Nat,
      (∀ cls e s, ∀ x ∈ s,
        x ∈ retrieve_all_entities_to_perform_ownership_transfer st fuel cls e s) ∧
      (∀ cls ts s, ∀ x ∈ s, x ∈ same_owner_targets_loop st fuel cls ts s) ∧
      (∀ cls ecid vals s, ∀ x ∈ s, x ∈ retrieve_values_loop st fuel cls ecid vals s) := by
  intro fuel
  induction fuel with
  | zero =>
    have hE : ∀ cls e s, ∀ x ∈ s,
        x ∈ retrieve_all_entities_to_perform_ownership_transfer st 0 cls e s := by
      intro cls e s x hx
      simpa [retrieve_all_entities_to_perform_ownership_transfer] using hx
    have hT : ∀ cls ts s, ∀ x ∈ s, x ∈ same_owner_targets_loop st 0 cls ts s := by
      intro cls ts
      induction ts with
      | nil => intro s x hx; simpa [same_owner_targets_loop] using hx
      | cons t ts ih =>
        intro s x hx
        rw [same_owner_targets_loop]
        apply ih
        by_cases hts : t ∈ s
        · rw [if_pos hts]; exact hx
        · rw [if_neg hts]
          exact hE _ _ _ x (List.mem_cons_of_mem _ hx)
    refine ⟨hE, hT, ?_⟩
    intro cls ecid vals
    induction vals with
    | nil => intro s x hx; simpa [retrieve_values_loop] using hx
    | cons pv rest ih =>
      intro s x hx
      rw [retrieve_values_loop]
      apply ih
      cases hso : sameOwnerRefClass cls pv.1 with
      | none => exact hx
      | some cid =>
        dsimp only
        unfold get_all_same_owner_entities
        exact hT _ _ _ x hx
  | succ f ihf =>
    obtain ⟨ihE, ihT, ihV⟩ := ihf
    have hE : ∀ cls e s, ∀ x ∈ s,
        x ∈ retrieve_all_entities_to_perform_ownership_transfer st (f + 1) cls e s := by
      intro cls e s x hx
      rw [retrieve_all_entities_to_perform_ownership_transfer]
      exact ihV _ _ _ _ x hx
    have hT : ∀ cls ts s, ∀ x ∈ s, x ∈ same_owner_targets_loop st (f + 1) cls ts s := by
      intro cls ts
      induction ts with
      | nil => intro s x hx; simpa [same_owner_targets_loop] using hx
      | cons t ts ih =>
        intro s x hx
        rw [same_owner_targets_loop]
        apply ih
        by_cases hts : t ∈ s
        · rw [if_pos hts]; exact hx
        · rw [if_neg hts]
          exact hE _ _ _ x (List.mem_cons_of_mem _ hx)
    refine ⟨hE, hT, ?_⟩
    intro cls ecid vals
    induction vals with
    | nil => intro s x hx; simpa [retrieve_values_loop] using hx
    | cons pv rest ih =>
      intro s x hx
      rw [retrieve_values_loop]
      apply ih
      cases hso : sameOwnerRefClass cls pv.1 with
      | none => exact hx
      | some cid =>
        dsimp only
        unfold get_all_same_owner_entities
        exact hT _ _ _ x hx

/-- Soundness at the targets-loop level follows from soundness at the entity
level with the same fuel. -/
theorem sound_T (st : State) (G : Nat → Prop)
    (hG : ∀ a b, G a → sameOwnerEdge st a b → G b)
    (fuel : Nat) (hE : SoundE st G fuel) : SoundT st G fuel := by
  intro a cls2 ts
  induction ts with
  | nil =>
    intro s _ _ _ hs x hx
    simp only [same_owner_targets_loop] at hx
    exact hs x hx
  | cons t ts ih =>
    intro s hedge hcc Ga hs x hx
    rw [same_owner_targets_loop] at hx
    refine ih _ (fun u hu => hedge u (List.mem_cons_of_mem _ hu))
      (fun u hu => hcc u (List.mem_cons_of_mem _ hu)) Ga ?_ x hx
    by_cases hts : t ∈ s
    · rw [if_pos hts]; exact hs
    · rw [if_neg hts]
      have Gt : G t := hG a t Ga (hedge t (List.mem_cons_self _ _))
      apply hE t cls2 (t :: s) (hcc t (List.mem_cons_self _ _)) Gt
      intro y hy
      rcases List.mem_cons.mp hy with rfl | hy2
      · exact Gt
      · exact hs y hy2

/-- Soundness at the values-loop level follows from soundness at the
targets-loop level with the same fuel, using the well-typedness of stored
references for the class switch. -/
theorem sound_V (st : State) (G : Nat → Prop) (hw : wtOk st = true)
    (fuel : Nat) (hT : SoundT st G fuel) : SoundV st G fuel := by
  intro a cls s vals
  induction vals generalizing s with
  | nil =>
    intro _ _ _ hs x hx
    simp only [retrieve_values_loop] at hx
    exact hs x hx
  | cons pv rest ih =>
    intro hcls hsub Ga hs x hx
    rw [retrieve_values_loop] at hx
    cases hso : sameOwnerRefClass cls pv.1 with
    | none =>
      rw [hso] at hx
      dsimp only at hx
      exact ih _ hcls (fun q hq => hsub q (List.mem_cons_of_mem _ hq)) Ga hs x hx
    | some cid =>
      rw [hso] at hx
      dsimp only at hx
      unfold get_all_same_owner_entities at hx
      have hpvv : pv ∈ (entityOf st a).values := hsub pv (List.mem_cons_self _ _)
      obtain ⟨e, hae⟩ : ∃ e, lookupA a st.entity_by_id = some e := by
        cases hla : lookupA a st.entity_by_id with
        | none =>
          exfalso
          rw [entityOf_default hla, default_entity_values] at hpvv
          exact absurd hpvv (List.not_mem_nil pv)
        | some e => exact ⟨e, rfl⟩
      have hea : entityOf st a = e := getD_of_lookupA hae
      have hcls2 : (if cid ≠ (entityOf st a).class_id then classOf st cid else cls) =
          classOf st cid := by
        by_cases hc : cid ≠ (entityOf st a).class_id
        · rw [if_pos hc]
        · rw [if_neg hc]
          push_neg at hc
          rw [hcls, hc]
      have hsoe : sameOwnerRefClass (classOf st (entityOf st a).class_id) pv.1 = some cid := by
        rw [← hcls]; exact hso
      refine ih _ hcls (fun q hq => hsub q (List.mem_cons_of_mem _ hq)) Ga ?_ x hx
      intro y hy
      refine hT a _ (involvedD pv.2) s ?_ ?_ Ga hs y hy
      · intro t ht
        exact ⟨pv, hpvv, cid, hsoe, ht⟩
      · intro t ht
        cases hlt : lookupA t st.entity_by_id with
        | none =>
          right
          rw [entityOf_default hlt]
          exact default_entity_values
        | some et =>
          left
          have hsoe2 : sameOwnerRefClass (classOf st e.class_id) pv.1 = some cid := by
            rw [← hea]; exact hsoe
          have hcid : et.class_id = cid :=
            wt_spec hw hae pv (hea ▸ hpvv) hsoe2 t ht hlt
          have het : entityOf st t = et := getD_of_lookupA hlt
          rw [het, hcid]
          exact hcls2

/-- Soundness of the walker: every collected id satisfies any edge-closed
predicate holding at the start. -/
theorem sound_E (st : State) (G : Nat → Prop)
    (hG : ∀ a b, G a → sameOwnerEdge st a b → G b) (hw : wtOk st = true) :
    ∀ fuel, SoundE st G fuel := by
  intro fuel
  induction fuel with
  | zero =>
    intro a cls s _ _ hs x hx
    simp only [retrieve_all_entities_to_perform_ownership_transfer] at hx
    exact hs x hx
  | succ f ihf =>
    have hT := sound_T st G hG f ihf
    have hV := sound_V st G hw f hT
    intro a cls s hcc Ga hs x hx
    rw [retrieve_all_entities_to_perform_ownership_transfer] at hx
    rcases hcc with hcls | hvals
    · exact hV a cls s (entityOf st a).values hcls (fun pv h => h) Ga hs x hx
    · rw [hvals] at hx
      simp only [retrieve_values_loop] at hx
      exact hs x hx

/-- Completeness at the targets-loop level follows from completeness at the
entity level with the same fuel. -/
theorem closed_T (st : State) (fuel : Nat) (hE : ClosedE st fuel) : ClosedT st fuel := by
  intro cls2 ts
  induction ts with
  | nil =>
    intro s _ _ _
    constructor
    · intro t ht
      exact absurd ht (List.not_mem_nil t)
    · intro x hx hxs y _
      simp only [same_owner_targets_loop] at hx
      exact absurd hx hxs
  | cons t ts ih =>
    intro s hta hcc hfuel
    obtain ⟨monoE, monoT, monoV⟩ := walker_mono st fuel
    by_cases hts : t ∈ s
    · have heq : same_owner_targets_loop st fuel cls2 (t :: ts) s =
          same_owner_targets_loop st fuel cls2 ts s := by
        rw [same_owner_targets_loop, if_pos hts]
      have ihr := ih s (fun u hu => hta u (List.mem_cons_of_mem _ hu))
        (fun u hu => hcc u (List.mem_cons_of_mem _ hu)) hfuel
      rw [heq]
      constructor
      · intro u hu
        rcases List.mem_cons.mp hu with rfl | hu2
        · exact monoT _ _ _ u hts
        · exact ihr.1 u hu2
      · exact ihr.2
    · have hta1 : t ∈ allTargets st := hta t (List.mem_cons_self _ _)
      have hmiss := missingCount_cons_lt hta1 hts
      have hlt : missingCount st (t :: s) < fuel := by omega
      have hE1 := hE t cls2 (t :: s) (hcc t (List.mem_cons_self _ _)) hlt
      have hsub1 : ∀ x ∈ t :: s,
          x ∈ retrieve_all_entities_to_perform_ownership_transfer st fuel cls2
            (entityOf st t) (t :: s) := fun x hx => monoE _ _ _ x hx
      have hfuel1 : missingCount st
          (retrieve_all_entities_to_perform_ownership_transfer st fuel cls2
            (entityOf st t) (t :: s)) ≤ fuel :=
        le_trans (missingCount_le_of_subset hsub1) (by omega)
      have heq : same_owner_targets_loop st fuel cls2 (t :: ts) s =
          same_owner_targets_loop st fuel cls2 ts
            (retrieve_all_entities_to_perform_ownership_transfer st fuel cls2
              (entityOf st t) (t :: s)) := by
        rw [same_owner_targets_loop, if_neg hts]
      have ihr := ih _ (fun u hu => hta u (List.mem_cons_of_mem _ hu))
        (fun u hu => hcc u (List.mem_cons_of_mem _ hu)) hfuel1
      rw [heq]
      constructor
      · intro u hu
        rcases List.mem_cons.mp hu with rfl | hu2
        · exact monoT _ _ _ u (hsub1 u (List.mem_cons_self _ _))
        · exact ihr.1 u hu2
      · intro x hx hxs y hy
        by_cases hx1 : x ∈ retrieve_all_entities_to_perform_ownership_transfer st fuel cls2
            (entityOf st t) (t :: s)
        · by_cases hxt : x = t
          · subst hxt
            exact monoT _ _ _ y (hE1.1 y hy)
          · have hx2 : x ∉ t :: s := by
              intro hmem
              rcases List.mem_cons.mp hmem with h1 | h2
              · exact hxt h1
              · exact hxs h2
            exact monoT _ _ _ y (hE1.2 x hx1 hx2 y hy)
        · exact ihr.2 x hx hx1 y hy

/-- Completeness at the values-loop level follows from completeness at the
targets-loop level with the same fuel. -/
theorem closed_V (st : State) (hw : wtOk st = true) (fuel : Nat)
    (hT : ClosedT st fuel) : ClosedV st fuel := by
  intro a cls s vals
  induction vals generalizing s with
  | nil =>
    intro _ _ _
    constructor
    · intro pv hpv
      exact absurd hpv (List.not_mem_nil _)
    · intro x hx hxs y _
      simp only [retrieve_values_loop] at hx
      exact absurd hx hxs
  | cons pv rest ih =>
    intro hcls hsub hfuel
    obtain ⟨monoE, monoT, monoV⟩ := walker_mono st fuel
    cases hso : sameOwnerRefClass cls pv.1 with
    | none =>
      have heq : retrieve_values_loop st fuel cls (entityOf st a).class_id (pv :: rest) s =
          retrieve_values_loop st fuel cls (entityOf st a).class_id rest s := by
        rw [retrieve_values_loop, hso]
      rw [heq]
      have ihr := ih s hcls (fun q hq => hsub q (List.mem_cons_of_mem _ hq)) hfuel
      constructor
      · intro q hq cid' hqso t ht
        rcases List.mem_cons.mp hq with rfl | hq2
        · rw [hso] at hqso
          exact absurd hqso (by simp)
        · exact ihr.1 q hq2 cid' hqso t ht
      · exact ihr.2
    | some cid =>
      have hpvv : pv ∈ (entityOf st a).values := hsub pv (List.mem_cons_self _ _)
      obtain ⟨e, hae⟩ : ∃ e, lookupA a st.entity_by_id = some e := by
        cases hla : lookupA a st.entity_by_id with
        | none =>
          exfalso
          rw [entityOf_default hla, default_entity_values] at hpvv
          exact absurd hpvv (List.not_mem_nil pv)
        | some e => exact ⟨e, rfl⟩
      have hea : entityOf st a = e := getD_of_lookupA hae
      have hcls2 : (if cid ≠ (entityOf st a).class_id then classOf st cid else cls) =
          classOf st cid := by
        by_cases hc : cid ≠ (entityOf st a).class_id
        · rw [if_pos hc]
        · rw [if_neg hc]
          push_neg at hc
          rw [hcls, hc]
      have hsoe : sameOwnerRefClass (classOf st (entityOf st a).class_id) pv.1 = some cid := by
        rw [← hcls]; exact hso
      have hta : ∀ t ∈ involvedD pv.2, t ∈ allTargets st :=
        fun t ht => involved_mem_allTargets hae (hea ▸ hpvv) ht
      have hcc : ∀ t ∈ involvedD pv.2,
          (if cid ≠ (entityOf st a).class_id then classOf st cid else cls) =
            classOf st (entityOf st t).class_id ∨ (entityOf st t).values = [] := by
        intro t ht
        cases hlt : lookupA t st.entity_by_id with
        | none =>
          right
          rw [entityOf_default hlt]
          exact default_entity_values
        | some et =>
          left
          have hsoe2 : sameOwnerRefClass (classOf st e.class_id) pv.1 = some cid := by
            rw [← hea]; exact hsoe
          have hcid : et.class_id = cid :=
            wt_spec hw hae pv (hea ▸ hpvv) hsoe2 t ht hlt
          have het : entityOf st t = et := getD_of_lookupA hlt
          rw [het, hcid]
          exact hcls2
      have hTr := hT _ (involvedD pv.2) s hta hcc hfuel
      have hsub2 : ∀ x ∈ s, x ∈ same_owner_targets_loop st fuel
          (if cid ≠ (entityOf st a).class_id then classOf st cid else cls)
          (involvedD pv.2) s := fun x hx => monoT _ _ _ x hx
      have hfuel2 : missingCount st (same_owner_targets_loop st fuel
          (if cid ≠ (entityOf st a).class_id then classOf st cid else cls)
          (involvedD pv.2) s) ≤ fuel :=
        le_trans (missingCount_le_of_subset hsub2) hfuel
      have heq : retrieve_values_loop st fuel cls (entityOf st a).class_id (pv :: rest) s =
          retrieve_values_loop st fuel cls (entityOf st a).class_id rest
            (same_owner_targets_loop st fuel
              (if cid ≠ (entityOf st a).class_id then classOf st cid else cls)
              (involvedD pv.2) s) := by
        rw [retrieve_values_loop, hso]
        dsimp only
        unfold get_all_same_owner_entities
        rfl
      rw [heq]
      have ihr := ih _ hcls (fun q hq => hsub q (List.mem_cons_of_mem _ hq)) hfuel2
      constructor
      · intro q hq cid' hqso t ht
        rcases List.mem_cons.mp hq with rfl | hq2
        · have hc' : cid = cid' := by
            rw [hso] at hqso
            injection hqso
          subst hc'
          exact monoV _ _ _ _ t (hTr.1 t ht)
        · exact ihr.1 q hq2 cid' hqso t ht
      · intro x hx hxs y hy
        by_cases hx2 : x ∈ same_owner_targets_loop st fuel
            (if cid ≠ (entityOf st a).class_id then classOf st cid else cls)
            (involvedD pv.2) s
        · exact monoV _ _ _ _ y (hTr.2 x hx2 hxs y hy)
        · exact ihr.2 x hx hx2 y hy

/-- Completeness of the walker: with the supplied fuel it collects every
direct target of the start entity, and its result is closed under same-owner
edges at every fresh node. -/
theorem closed_E (st : State) (hw : wtOk st = true) : ∀ fuel, ClosedE st fuel := by
  intro fuel
  induction fuel with
  | zero =>
    intro a cls s _ hfuel
    exact absurd hfuel (Nat.not_lt_zero _)
  | succ f ihf =>
    have hT := closed_T st f ihf
    have hV := closed_V st hw f hT
    intro a cls s hcc hfuel
    rcases hcc with hcls | hvals
    · have hVr := hV a cls s (entityOf st a).values hcls (fun q hq => hq) (by omega)
      have heq : retrieve_all_entities_to_perform_ownership_transfer st (f + 1) cls
          (entityOf st a) s =
          retrieve_values_loop st f cls (entityOf st a).class_id (entityOf st a).values s := by
        rw [retrieve_all_entities_to_perform_ownership_transfer]
      rw [heq]
      constructor
      · intro y hy
        rw [edgeTargets_mem] at hy
        obtain ⟨pv, hpv, cid, hso, hyin⟩ := hy
        exact hVr.1 pv hpv cid (by rw [hcls]; exact hso) y hyin
      · exact hVr.2
    · have heq : retrieve_all_entities_to_perform_ownership_transfer st (f + 1) cls
          (entityOf st a) s = s := by
        rw [retrieve_all_entities_to_perform_ownership_transfer, hvals]
        simp only [retrieve_values_loop]
      rw [heq]
      constructor
      · intro y hy
        unfold edgeTargets at hy
        rw [hvals] at hy
        simp at hy
      · intro x hx hxs
        exact absurd hx hxs

/-- The controller-rewriting fold of `transfer_entity_ownership`: ids in the
collected list get the new controller (idempotently), all others keep their
entity unchanged. -/
theorem foldl_set_controller (newC : EntityController) :
    ∀ (l : List Nat) (acc : State) (x : Nat),
      entityOf (l.foldl (fun acc i =>
        let m := mutA i (fun e2 => set_controller e2 newC) acc.entity_by_id
        { acc with entity_by_id := m }) acc) x =
      if x ∈ l then set_controller (entityOf acc x) newC else entityOf acc x := by
  intro l
  induction l with
  | nil =>
    intro acc x
    simp
  | cons i l ih =>
    intro acc x
    rw [List.foldl_cons, ih]
    dsimp only
    by_cases hxi : x = i
    · subst hxi
      have h1 : entityOf
          { acc with entity_by_id := mutA x (fun e2 => set_controller e2 newC) acc.entity_by_id }
          x = set_controller (entityOf acc x) newC := by
        unfold entityOf
        dsimp only
        exact getD_mutA_self _ _ _
      rw [if_pos (List.mem_cons_self _ _)]
      by_cases hxl : x ∈ l
      · rw [if_pos hxl, h1]
        rfl
      · rw [if_neg hxl, h1]
    · have h1 : entityOf
          { acc with entity_by_id := mutA i (fun e2 => set_controller e2 newC) acc.entity_by_id }
          x = entityOf acc x := by
        unfold entityOf
        dsimp only
        exact getD_mutA_ne _ _ _ _ hxi
      by_cases hxl : x ∈ l
      · rw [if_pos hxl, if_pos (List.mem_cons_of_mem _ hxl), h1]
      · rw [if_neg hxl, if_neg (by
          intro hmem
          rcases List.mem_cons.mp hmem with h2 | h2
          · exact hxi h2
          · exact hxl h2), h1]

/-- The walker started at a stored root collects exactly the ids reachable
from the root along same-owner reference edges. -/
theorem walker_collects_reachable (st : State) (hw : wtOk st = true)
    {root : Nat} {e : Entity} (hroot : lookupA root st.entity_by_id = some e) :
    ∀ x, x ∈ retrieve_all_entities_to_perform_ownership_transfer st (transferFuel st)
        (classOf st e.class_id) e [root] ↔ ReachSO st root x := by
  have hre : entityOf st root = e := getD_of_lookupA hroot
  rw [← hre]
  have hstart : ∀ y ∈ [root], ReachSO st root y := by
    intro y hy
    rcases List.mem_cons.mp hy with rfl | h2
    · exact Relation.ReflTransGen.refl
    · exact absurd h2 (List.not_mem_nil y)
  intro x
  constructor
  · intro hx
    exact sound_E st (ReachSO st root)
      (fun a b ha hab => Relation.ReflTransGen.tail ha hab) hw (transferFuel st)
      root _ [root] (Or.inl rfl) Relation.ReflTransGen.refl hstart x hx
  · intro hx
    obtain ⟨hcont, hclosed⟩ := closed_E st hw (transferFuel st) root
      (classOf st (entityOf st root).class_id) [root] (Or.inl rfl)
      (missingCount_lt_transferFuel st [root])
    have hrootmem : root ∈ retrieve_all_entities_to_perform_ownership_transfer st
        (transferFuel st) (classOf st (entityOf st root).class_id) (entityOf st root) [root] :=
      (walker_mono st _).1 _ _ _ root (List.mem_cons_self _ _)
    have hx' : Relation.ReflTransGen (sameOwnerEdge st) root x := hx
    induction hx' with
    | refl => exact hrootmem
    | @tail b c h1 h2 ih =>
      have hb : b ∈ retrieve_all_entities_to_perform_ownership_transfer st
          (transferFuel st) (classOf st (entityOf st root).class_id)
          (entityOf st root) [root] := ih h1
      by_cases hbr : b = root
      · subst hbr
        exact hcont c (edgeTargets_mem.mpr h2)
      · have hbn : b ∉ [root] := by
          intro hmem
          rcases List.mem_cons.mp hmem with h3 | h3
          · exact hbr h3
          · exact absurd h3 (List.not_mem_nil b)
        exact hclosed b hb hbn c (edgeTargets_mem.mpr h2)

/-- C2: `transfer_entity_ownership` called by the lead on a stored entity
with zero inbound same-owner references succeeds and rewrites the
controller of the root and of exactly the entities reachable from it along
same-owner reference edges; unreachable entities are untouched.  With a
non-zero inbound same-owner counter the call fails (so, the result being an
error, no state changes).  The stored references are assumed well typed
(`wtOk`), which the write-time validator guarantees. -/
theorem c2_transfer_entity_ownership_correct
    (st : State) (root : Nat) (newC : EntityController) (e : Entity)
    (hw : wtOk st = true) (hroot : lookupA root st.entity_by_id = some e) :
    (e.inbound_same_owner_references_from_other_entities_count = 0 →
      (transfer_entity_ownership st true root newC).isOk = true ∧
      (∀ x, ReachSO st root x →
        (entityOf (Res.valOf (transfer_entity_ownership st true root newC)).1
          x).entity_permission.controller = newC) ∧
      (∀ x, ¬ ReachSO st root x →
        entityOf (Res.valOf (transfer_entity_ownership st true root newC)).1 x =
          entityOf st x)) ∧
    (e.inbound_same_owner_references_from_other_entities_count ≠ 0 →
      transfer_entity_ownership st true root newC = .err .entityRcNonZero) := by
  constructor
  · intro hz
    have hmain : transfer_entity_ownership st true root newC =
        .ok ((retrieve_all_entities_to_perform_ownership_transfer st (transferFuel st)
              (classOf st e.class_id) e [root]).foldl
            (fun acc i =>
              let m := mutA i (fun e2 => set_controller e2 newC) acc.entity_by_id
              { acc with entity_by_id := m }) st,
          [.entityOwnershipTransfered root newC]) := by
      unfold transfer_entity_ownership
      rw [if_neg (by simp), hroot]
      dsimp only
      unfold ensure_inbound_same_owner_rc_is_zero
      rw [if_pos hz]
    rw [hmain]
    dsimp only [Res.isOk, Res.valOf]
    refine ⟨rfl, ?_, ?_⟩
    · intro x hx
      have hmem := (walker_collects_reachable st hw hroot x).mpr hx
      rw [foldl_set_controller newC _ st x, if_pos hmem]
      rfl
    · intro x hx
      have hmem : x ∉ retrieve_all_entities_to_perform_ownership_transfer st
          (transferFuel st) (classOf st e.class_id) e [root] :=
        fun hm => hx ((walker_collects_reachable st hw hroot x).mp hm)
      rw [foldl_set_controller newC _ st x, if_neg hmem]
  · intro hz
    unfold transfer_entity_ownership
    rw [if_neg (by simp), hroot]
    dsimp only
    unfold ensure_inbound_same_owner_rc_is_zero
    rw [if_neg hz]

/-- Witness for C2 on a concrete store: member `1` owns entity `10`, which
references entity `11` through a same-controller property; the transfer to
member `3` succeeds, moving both `10` and `11` while entity `12` (member
`2`) keeps its controller. -/
theorem c2_transfer_entity_ownership_correct_witness :
    (wtOk stC2 = true ∧ lookupA 10 stC2.entity_by_id = some entC2root ∧
      entC2root.inbound_same_owner_references_from_other_entities_count = 0) ∧
    ((transfer_entity_ownership stC2 true 10 (.member 3)).isOk = true ∧
      (∀ x, ReachSO stC2 10 x →
        (entityOf (Res.valOf (transfer_entity_ownership stC2 true 10 (.member 3))).1
          x).entity_permission.controller = .member 3) ∧
      (∀ x, ¬ ReachSO stC2 10 x →
        entityOf (Res.valOf (transfer_entity_ownership stC2 true 10 (.member 3))).1 x =
          entityOf stC2 x)) := by
  have h := c2_transfer_entity_ownership_correct stC2 10 (.member 3) entC2root
    (by decide) (by decide)
  exact ⟨⟨by decide, by decide, by decide⟩, h.1 (by decide)⟩

end ContentDirectory
